import Mathlib

/-!
Verification of a Redis-wire-compatible in-memory data server (JavaScript
source) against its natural-language specification.  The JavaScript modules
(`Encoder`, `RequestParser`, `HashTable`, `RDBParser`, `MasterServer`,
`SlaveServer`) are shallowly embedded below as executable Lean definitions:
strings become `List Char` or `String`, the JS `Map` becomes an
insertion-ordered association list, mutation becomes explicit state passing,
and runtime faults (`TypeError`, `RangeError`) become `Except.error`.
-/

set_option maxRecDepth 10000

namespace Redis

/-- Embeds `\r\n`, the RESP line terminator. -/
def crlf : List Char := ['\r', '\n']

/-- Value of an ASCII digit character, as JS computes `c - "0"` on digits. -/
def digitVal (c : Char) : Nat := c.toNat - 48

/-- Recursion core for `natToChars`; the fuel only bounds the recursion
depth (one division by ten per step) and `natToChars` always supplies
enough. -/
def natToCharsAux : Nat → Nat → List Char
  | 0, _ => []
  | fuel + 1, n =>
    if n < 10 then [Nat.digitChar n]
    else natToCharsAux fuel (n / 10) ++ [Nat.digitChar (n % 10)]

/-- Decimal digit characters of `n`, as produced by the JS number-to-string
conversion used in template literals (`${n}`). -/
def natToChars (n : Nat) : List Char := natToCharsAux (n + 1) n

/-- Decimal string of `n` (JS `${n}`). -/
def natToString (n : Nat) : String := ⟨natToChars n⟩

/-- Fold a digit list onto an accumulator the way `RequestParser.readNum`
accumulates: `num = num * 10 + (c - "0")`. -/
def digitsVal (acc : Nat) (ds : List Char) : Nat :=
  ds.foldl (fun a c => a * 10 + digitVal c) acc

/-- JS `String.prototype.toLowerCase` restricted to the ASCII commands the
server dispatches on. -/
def jsToLower (s : List Char) : List Char := s.map Char.toLower

/-- JS string relational comparison `a < b`: lexicographic on code units. -/
def jsStrLtChars : List Char → List Char → Bool
  | [], [] => false
  | [], _ :: _ => true
  | _ :: _, [] => false
  | a :: as, b :: bs =>
    if a.toNat < b.toNat then true
    else if b.toNat < a.toNat then false
    else jsStrLtChars as bs

/-- JS `a < b` on strings. -/
def jsStrLt (a b : String) : Bool := jsStrLtChars a.data b.data

/-- JS `a <= b` on strings (total order, so `a <= b ↔ ¬ b < a`). -/
def jsStrLe (a b : String) : Bool := ! jsStrLt b a

/-- JS `a <= b` where either side may be `undefined` (an `undefined` operand
makes the relational comparison `false`). -/
def jsLeOpt : Option String → Option String → Bool
  | some a, some b => jsStrLe a b
  | _, _ => false

/-- JS `String.prototype.split("-")`. -/
def splitDashChars : List Char → List (List Char)
  | [] => [[]]
  | c :: rest =>
    let r := splitDashChars rest
    if c = '-' then [] :: r
    else match r with
      | [] => [[c]]
      | h :: t => (c :: h) :: t

/-- Embeds `s.split("-")` as a list of strings. -/
def splitDash (s : String) : List String :=
  (splitDashChars s.data).map (fun l => ⟨l⟩)

/-- Embeds `s.split("-")[0]` — always defined, JS `split` never returns `[]`. -/
def idPart0 (s : String) : String := (splitDash s).headD ""

/-- Embeds `s.split("-")[1]` — `none` models JS `undefined`. -/
def idPart1 (s : String) : Option String := (splitDash s).get? 1

/-- JS `parseInt(s, 10)` on the digit strings the server feeds it; `none`
models `NaN` (no leading digit). Leading digits are consumed, the rest is
ignored, exactly as `parseInt` does. -/
def jsParseInt (s : String) : Option Nat :=
  let ds := s.data.takeWhile Char.isDigit
  if ds = [] then none else some (digitsVal 0 ds)

/-- Render `parseInt(..) + 1` back to a string: `${parseInt(s) + 1}`; a `NaN`
prints as `"NaN"`. -/
def jsParseIntPlusOneToString : Option String → String
  | some s =>
    match jsParseInt s with
    | some n => natToString (n + 1)
    | none => "NaN"
  | none => "NaN"

/-! ## Encoder (src: Encoder.js) -/

namespace Encoder

/-- Embeds `Encoder.createSimpleString`: `+<text>\r\n`. -/
def createSimpleString (s : List Char) : List Char := '+' :: s ++ crlf

/-- Embeds `Encoder.createBulkString` with `isNull = false`:
`$<len>\r\n<bytes>\r\n`. -/
def createBulkString (s : List Char) : List Char :=
  '$' :: natToChars s.length ++ crlf ++ s ++ crlf

/-- Embeds `Encoder.createBulkString("", true)`: the null bulk string `$-1\r\n`. -/
def nullBulkString : List Char := ['$', '-', '1', '\r', '\n']

/-- Embeds `Encoder.createArray`: `*<n>\r\n` followed by the already-encoded
elements joined. -/
def createArray (elems : List (List Char)) : List Char :=
  '*' :: natToChars elems.length ++ crlf ++ elems.flatten

/-- Embeds `Encoder.createInteger`: `:<n>\r\n`. -/
def createInteger (n : Nat) : List Char := ':' :: natToChars n ++ crlf

/-- Embeds `Encoder.createSimpleError`: `-<msg>\r\n`. -/
def createSimpleError (msg : List Char) : List Char := '-' :: msg ++ crlf

/-- Encode an argument list as the RESP array of bulk strings that clients
send: `createArray(args.map(createBulkString))`. -/
def encodeArgs (args : List (List Char)) : List Char :=
  createArray (args.map createBulkString)

end Encoder

/-- The bytes of an encoded bulk string up to and including its payload but
without the trailing CRLF — the region a buffer must fully contain for the
parser to frame the bulk (the parser skips the final CRLF without reading
it). -/
def bulkCore (s : List Char) : List Char :=
  '$' :: natToChars s.length ++ crlf ++ s

/-- Concatenated encoded bulk strings with the very last CRLF removed. -/
def bulkJoinCore : List (List Char) → List Char
  | [] => []
  | [s] => bulkCore s
  | s :: rest => Encoder.createBulkString s ++ bulkJoinCore rest

/-- An encoded request frame without its final CRLF: the minimal prefix of
`Encoder.encodeArgs args` from which the parser still frames `args`. -/
def frameCore (args : List (List Char)) : List Char :=
  '*' :: natToChars args.length ++ crlf ++ bulkJoinCore args

/-! ## RequestParser (src: RequestParser.js)

The parser walks a string buffer with a cursor.  `curr` models the
bounds-checked character access (`PartialRequestError` on overrun), and the
`Except Unit` failure models the thrown-and-caught JS exceptions (both
`PartialRequestError` and the `assert.equal` failures, which the `catch`
block treats identically). -/

namespace RequestParser

/-- Embeds `curr()`: the character at the cursor, or a partial-request error when
the cursor is at or past the end of the buffer. -/
def curr (req : List Char) (c : Nat) : Except Unit Char :=
  match req.drop c with
  | [] => .error ()
  | ch :: _ => .ok ch

/-- The loop body of `readNum()`: walk the unread suffix of the buffer
(`rest = request.drop cursor` at every step), accumulating
`num = num * 10 + (c - "0")` until a `'\r'`; overrunning the buffer is the
thrown `PartialRequestError`. -/
def readNumGo : List Char → Nat → Nat → Except Unit (Nat × Nat)
  | [], _, _ => .error ()
  | ch :: rest, c, num =>
    if ch = '\r' then .ok (num, c + 2)
    else readNumGo rest (c + 1) (num * 10 + digitVal ch)

/-- Embeds `readNum()`: accumulate digits until a `'\r'`, then skip two
characters.  Returns the number and the new cursor. -/
def readNum (req : List Char) (c : Nat) (num : Nat) : Except Unit (Nat × Nat) :=
  readNumGo (req.drop c) c num

/-- Embeds `getString(len)`: bounds check `request.length < cursor + len`, then
slice `len` characters and advance the cursor by `len + 2` (the trailing
`\r\n` is skipped but never validated). -/
def getString (req : List Char) (c len : Nat) : Except Unit (List Char × Nat) :=
  if req.length < c + len then .error ()
  else .ok ((req.drop c).take len, c + len + 2)

/-- Embeds `readBulkString()`: expect `'$'`, read the length, then the payload. -/
def readBulkString (req : List Char) (c : Nat) : Except Unit (List Char × Nat) := do
  let ch ← curr req c
  if ch = '$' then
    let (len, c') ← readNum req (c + 1) 0
    getString req c' len
  else .error ()

/-- The `for` loop of `parse()`: read `n` bulk strings. -/
def readArgs (req : List Char) : Nat → Nat → Except Unit (List (List Char) × Nat)
  | 0, c => .ok ([], c)
  | n + 1, c => do
    let (s, c') ← readBulkString req c
    let (rest, c'') ← readArgs req n c'
    .ok (s :: rest, c'')

/-- Embeds `parse()` from cursor `start`: on success the argument list and the
advanced cursor; on any thrown error the cursor rolls back to `start` and
the argument list is empty. -/
def parseFrom (req : List Char) (start : Nat) : List (List Char) × Nat :=
  match (do
      let ch ← curr req start
      if ch = '*' then
        let (n, c) ← readNum req (start + 1) 0
        readArgs req n c
      else (.error () : Except Unit (List (List Char) × Nat))) with
  | .ok (args, c) => (args, c)
  | .error _ => ([], start)

/-- Embeds `this.currentRequest` after a `parse()` attempt that moved the cursor
from `start` to `stop`: `request.slice(start, stop)` (clamped at the end of
the buffer, as `slice` is). -/
def currentRequest (req : List Char) (start stop : Nat) : List Char :=
  (req.drop start).take (stop - start)

/-- Embeds `getRemainingRequest()`: `request.slice(cursor)`. -/
def getRemainingRequest (req : List Char) (c : Nat) : List Char := req.drop c

end RequestParser

/-! ## HashTable (src: HashTable.js)

The JS `Map` is an insertion-ordered association list; `Map.set` updates an
existing key in place, `Map.delete` removes it.  A map entry's `value` is
either a string or a stream (an array of entries), and the `type` tag the
source stores alongside is derived from the variant.  `expiry` is `none`
for the entries the source stores without an `expiry` field (streams), for
which the JS comparison `undefined < Date.now()` is `false`. -/

/-- A stream entry: the JS object `{ id, field1: v1, ... }`, with the `id`
property held separately and the remaining own properties in insertion
order. -/
structure StreamEntry where
  id : String
  fields : List (String × String)
  deriving Repr, DecidableEq

/-- JS object property assignment `obj[k] = v` on the field list: overwrite
in place if present, else append. -/
def objSet : List (String × String) → String → String → List (String × String)
  | [], k, v => [(k, v)]
  | (k', v') :: rest, k, v =>
    if k' = k then (k', v) :: rest else (k', v') :: objSet rest k v

/-- A keyspace value: `String` bytes or a stream's entry array. -/
inductive JsValue where
  | str (s : String)
  | stream (entries : List StreamEntry)
  deriving Repr, DecidableEq

/-- The `type` tag stored with each entry (`"string"` / `"stream"`). -/
def JsValue.typeTag : JsValue → String
  | .str _ => "string"
  | .stream _ => "stream"

/-- One `Map` entry: `{ value, expiry, type }`; `expiry = none` models an
absent (`undefined`) expiry field. -/
structure MapEntry where
  value : JsValue
  expiry : Option Nat
  deriving Repr, DecidableEq

/-- The hash table's backing `Map`. -/
def JsMap := List (String × MapEntry)

instance : DecidableEq JsMap := by unfold JsMap; infer_instance

/-- Well-formedness of the association-list model of a JS `Map`: each key
occurs at most once (every map the server builds satisfies this). -/
def mapWF (m : JsMap) : Prop := (m.map (·.1)).Nodup

instance : DecidablePred mapWF := fun m => by unfold mapWF; infer_instance

/-- Embeds `Map.get` (first match; keys occur at most once under `mapSet`). -/
def mapGet (m : JsMap) (k : String) : Option MapEntry :=
  match m with
  | [] => none
  | (k', e) :: rest => if k' = k then some e else mapGet rest k

/-- Embeds `Map.set`: update in place or append. -/
def mapSet (m : JsMap) (k : String) (e : MapEntry) : JsMap :=
  match m with
  | [] => [(k, e)]
  | (k', e') :: rest =>
    if k' = k then (k', e) :: rest else (k', e') :: mapSet rest k e

/-- Embeds `Map.delete`. -/
def mapDelete (m : JsMap) (k : String) : JsMap :=
  match m with
  | [] => []
  | (k', e') :: rest =>
    if k' = k then rest else (k', e') :: mapDelete rest k

namespace HashTable

/-- Embeds `has(key)` at instant `now`: expired entries (`expiry < Date.now()`)
are deleted and reported absent.  Returns the answer and the (possibly
reaped) map. -/
def has (m : JsMap) (now : Nat) (k : String) : Bool × JsMap :=
  match mapGet m k with
  | none => (false, m)
  | some e =>
    match e.expiry with
    | some exp => if exp < now then (false, mapDelete m k) else (true, m)
    | none => (true, m)

/-- Embeds `get(key)`: the entry's `value` if `has` holds, else `null`. -/
def get (m : JsMap) (now : Nat) (k : String) : Option JsValue × JsMap :=
  match has m now k with
  | (true, m') => ((mapGet m' k).map (·.value), m')
  | (false, m') => (none, m')

/-- Embeds `getType(key)`: the entry's `type` tag if `has` holds, else `null`. -/
def getType (m : JsMap) (now : Nat) (k : String) : Option String × JsMap :=
  match has m now k with
  | (true, m') => ((mapGet m' k).map (·.value.typeTag), m')
  | (false, m') => (none, m')

/-- Embeds `insertKeyWithTimeStamp(key, value, timestamp)`: store a string entry
with an absolute expiry instant. -/
def insertKeyWithTimeStamp (m : JsMap) (k : String) (v : String)
    (timestamp : Option Nat) : JsMap :=
  mapSet m k ⟨.str v, timestamp⟩

/-- Embeds `insertWithExpiry(key, value, expiry)`: relative expiry;
`parseInt(expiry) + Date.now()`.  A `NaN` duration (`none`) yields a `NaN`
timestamp, which never compares as expired — modelled by `none`. -/
def insertWithExpiry (m : JsMap) (now : Nat) (k : String) (v : String)
    (expiry : Option Nat) : JsMap :=
  insertKeyWithTimeStamp m k v (expiry.map (· + now))

/-- Embeds `insert(key, value)`: the no-`PX` path, which defaults the expiry to 24
hours (`1000 * 60 * 60 * 24` milliseconds). -/
def insert (m : JsMap) (now : Nat) (k : String) (v : String) : JsMap :=
  insertWithExpiry m now k v (some (1000 * 60 * 60 * 24))

/-- Embeds `insertStream(key, value)`.  Faithful to the source: ids are handled as
strings, the `<`/`<=`/`===` comparisons between id components are JS
*string* comparisons, and a string-valued key makes the subsequent array
operations throw (`Except.error`).  Returns the assigned id (or `none` for
the `return null` rejections) and the updated map. -/
def insertStream (m : JsMap) (now : Nat) (key : String) (v : StreamEntry) :
    Except String (Option String × JsMap) := do
  let m1 := if (mapGet m key).isSome then m else mapSet m key ⟨.stream [], none⟩
  match mapGet m1 key with
  | none => .error "unreachable: key was just set"
  | some e =>
    match e.value with
    | .str _ => .error "TypeError: array operation on string value"
    | .stream es =>
      let currentId := if v.id = "*" then natToString now ++ "-*" else v.id
      let currentIdMillis := idPart0 currentId
      let currentIdSequence := idPart1 currentId
      if currentIdSequence = some "*" then
        if h : es = [] then
          let seq := if currentIdMillis = "0" then "1" else "0"
          let cid := currentIdMillis ++ "-" ++ seq
          let entry : StreamEntry := ⟨cid, v.fields⟩
          .ok (some cid, mapSet m1 key ⟨.stream (es ++ [entry]), e.expiry⟩)
        else
          let lastEntry := es.getLast h
          let lastIdMilisecond := idPart0 lastEntry.id
          let lastIdSequence := idPart1 lastEntry.id
          if jsStrLt currentIdMillis lastIdMilisecond then .ok (none, m1)
          else if currentIdMillis = lastIdMilisecond then
            let seq := jsParseIntPlusOneToString lastIdSequence
            let cid := currentIdMillis ++ "-" ++ seq
            let entry : StreamEntry := ⟨cid, v.fields⟩
            .ok (some cid, mapSet m1 key ⟨.stream (es ++ [entry]), e.expiry⟩)
          else
            let cid := currentIdMillis ++ "-" ++ "0"
            let entry : StreamEntry := ⟨cid, v.fields⟩
            .ok (some cid, mapSet m1 key ⟨.stream (es ++ [entry]), e.expiry⟩)
      else
        if h : es ≠ [] then
          let lastEntry := es.getLast h
          let lastIdMilisecond := idPart0 lastEntry.id
          let lastIdSequence := idPart1 lastEntry.id
          if jsStrLt currentIdMillis lastIdMilisecond then .ok (none, m1)
          else if currentIdMillis = lastIdMilisecond ∧
              jsLeOpt currentIdSequence lastIdSequence = true then .ok (none, m1)
          else
            .ok (some currentId, mapSet m1 key ⟨.stream (es ++ [v]), e.expiry⟩)
        else
          .ok (some currentId, mapSet m1 key ⟨.stream (es ++ [v]), e.expiry⟩)

/-- Embeds `Number.MAX_SAFE_INTEGER`. -/
def maxSafeInteger : Nat := 9007199254740991

/-- Embeds `getStreamBetween(key, start, end)`.  The bound normalisation is
faithful to the source; the range filter itself is unreachable because the
source calls `entries.filteR(...)`, a property no array has, so every
present key raises a `TypeError`. -/
def getStreamBetween (m : JsMap) (key start en : String) :
    Except String (List (String × List String)) :=
  let start1 := if start = "1" then "0-1" else start
  let en1 := if en = "+"
    then natToString maxSafeInteger ++ "-" ++ natToString maxSafeInteger
    else en
  let _start2 := if ¬ start1.contains '-' then start1 ++ "-0" else start1
  let _en2 := if ¬ en1.contains '-'
    then en1 ++ "-" ++ natToString maxSafeInteger else en1
  if mapGet m key = none then .ok []
  else .error "TypeError: entries.filteR is not a function"

/-- Embeds `getAllKeys()`. -/
def getAllKeys (m : JsMap) : List String := m.map (·.1)

/-- Modelled from the spec: `getStreamAfter` (spec §4.C `xread_after`) is
called by `MasterServer.handleXread`/`checkBlock` but is not present in the
source's `HashTable.js`; per the spec it returns, for each key, the entries
with `id > start_id`, omitting keys with no new entries.  Ids are compared
numerically on the `(ms, seq)` pair. -/
def getStreamAfter (m : JsMap) (keys startIds : List String) :
    List (String × List (String × List String)) :=
  (keys.zip startIds).filterMap (fun (k, startId) =>
    match mapGet m k with
    | some ⟨.stream es, _⟩ =>
      let sMs := (jsParseInt (idPart0 startId)).getD 0
      let sSeq := (jsParseInt ((idPart1 startId).getD "0")).getD 0
      let newer := es.filter (fun e =>
        let ms := (jsParseInt (idPart0 e.id)).getD 0
        let seq := (jsParseInt ((idPart1 e.id).getD "0")).getD 0
        decide (sMs < ms ∨ (sMs = ms ∧ sSeq < seq)))
      if newer = [] then none
      else some (k, newer.map (fun e => (e.id, (e.fields.map
        (fun (a, b) => [a, b])).flatten)))
    | _ => none)

end HashTable

/-! ## RDBParser (src: RDBParser.js) — the length-decoding readers

The snapshot buffer is a list of byte values.  `buffer[cursor++]` yields
`undefined` past the end, which the subsequent JS bitwise operations treat
as `0`; `Buffer.readUInt32LE` throws a `RangeError` out of bounds. -/

namespace RDBParser

/-- Embeds `readByte()`: `this.buffer[this.cursor++]` (an out-of-range read gives
`undefined`, which the callers' bitwise operations coerce to `0`). -/
def readByte (buf : List Nat) (c : Nat) : Nat × Nat := (buf.getD c 0, c + 1)

/-- Embeds `read4Bytes()`: `buffer.readUInt32LE(cursor)` — **little-endian** —
then advance the cursor by 4. -/
def read4Bytes (buf : List Nat) (c : Nat) : Except String (Nat × Nat) :=
  if c + 4 ≤ buf.length then
    .ok (buf.getD c 0 + 256 * buf.getD (c + 1) 0 + 65536 * buf.getD (c + 2) 0 +
      16777216 * buf.getD (c + 3) 0, c + 4)
  else .error "RangeError: attempt to access memory outside buffer bounds"

/-- Embeds `read2Bytes()`: `buffer.readUInt16LE(cursor)`. -/
def read2Bytes (buf : List Nat) (c : Nat) : Except String (Nat × Nat) :=
  if c + 2 ≤ buf.length then .ok (buf.getD c 0 + 256 * buf.getD (c + 1) 0, c + 2)
  else .error "RangeError: attempt to access memory outside buffer bounds"

/-- Embeds `readLengthEncoding()`: dispatch on the first byte's top two bits
(`firstByte >> 6`); returns `(type, value)` and the new cursor, where
`type` is `"length"` or `"format"`. -/
def readLengthEncoding (buf : List Nat) (c : Nat) :
    Except String ((String × Nat) × Nat) :=
  let (firstByte, c1) := readByte buf c
  let twoBits := firstByte / 64
  if twoBits = 0 then .ok (("length", firstByte % 64), c1)
  else if twoBits = 1 then
    let (secondByte, c2) := readByte buf c1
    .ok (("length", (firstByte % 64) * 256 + secondByte), c2)
  else if twoBits = 2 then do
    let (v, c2) ← read4Bytes buf c1
    .ok (("length", v), c2)
  else .ok (("format", firstByte % 64), c1)

end RDBParser

/-! ## MasterServer (src: the full MasterServer.js with XRANGE/XREAD)

Sockets are identified by numeric uids; a write to a socket is recorded as
a `(Sink, bytes)` pair, in program order.  Timers (`setTimeout` handles)
are modelled by an armed/cleared flag. -/

/-- Destination of a socket write on the leader. -/
inductive Sink where
  | client (uid : Nat)
  | replica (uid : Nat)
  deriving Repr, DecidableEq

/-- The pending `WAIT` record (`this.wait`). -/
structure WaitRec where
  numOfAckReplicas : Nat
  numOfReqReplicas : String
  socket : Nat
  isDone : Bool
  request : List Char
  timerArmed : Bool
  deriving Repr, DecidableEq

/-- The pending `XREAD BLOCK` record (`this.block`); `timerArmed = false`
models `timeout === -1`. -/
structure BlockRec where
  streamKeys : List String
  startIds : List String
  socket : Nat
  isDone : Bool
  timerArmed : Bool
  deriving Repr, DecidableEq

/-- Leader state: keyspace, replication offset, connected-replica uids,
pending `WAIT`/`XREAD BLOCK` records, and the `CONFIG` table (`none`
models a `null` config). -/
structure MasterState where
  dataStore : JsMap
  masterReplOffset : Nat
  replicas : List Nat
  wait : Option WaitRec
  block : Option BlockRec
  config : Option (List (String × String))
  deriving DecidableEq

/-- Embeds `this.masterReplId`. -/
def masterReplId : String := "8371b4fb1155b71f4a04d3e1bc3e18c4a990aeeb"

/-- JS `toLowerCase` on a `String`. -/
def strToLower (s : String) : String := ⟨jsToLower s.data⟩

/-- JS `Number(s)`: the numeric value of a digit string, `0` for the empty
string, `NaN` (`none`) otherwise. -/
def jsToNumber (s : String) : Option Nat :=
  if s = "" then some 0
  else if s.data.all Char.isDigit then some (digitsVal 0 s.data) else none

/-- JS `n >= s` for a number `n` and string `s`: the string is coerced to a
number; a `NaN` comparison is `false`. -/
def jsNumGeStr (n : Nat) (s : String) : Bool :=
  match jsToNumber s with
  | some m => decide (m ≤ n)
  | none => false

namespace MasterServer

/-- Embeds `handlePing()`. -/
def handlePing : List Char := Encoder.createSimpleString "PONG".data

/-- Embeds `handleEcho(args)`: `createBulkString(args[0])`; a missing argument is
the JS `undefined`, on which `createBulkString` throws. -/
def handleEcho (args : List String) : Except String (List Char) :=
  match args with
  | a :: _ => .ok (Encoder.createBulkString a.data)
  | [] => .error "TypeError: string operation on undefined"

/-- Embeds `handleSet(args)`: two arguments take the default-expiry `insert`, more
take `insertWithExpiry(key, value, args[3])`.  Returns `+OK` and the new
map. -/
def handleSet (m : JsMap) (now : Nat) (args : List String) :
    List Char × JsMap :=
  let key := args.getD 0 ""
  let value := args.getD 1 ""
  if args.length = 2 then
    (Encoder.createSimpleString "OK".data, HashTable.insert m now key value)
  else
    let expiryTime := args.getD 3 ""
    (Encoder.createSimpleString "OK".data,
      HashTable.insertWithExpiry m now key value (jsParseInt expiryTime))

/-- JS string conversion of a keyspace value, for the `GET`-on-stream path
(`${array}` joins `[object Object]` renderings). -/
def jsValueToString : JsValue → String
  | .str s => s
  | .stream es => String.intercalate "," (es.map (fun _ => "[object Object]"))

/-- JS `.length` of a keyspace value as used in `createBulkString`'s
template: string length, or the array's element count. -/
def jsValueLength : JsValue → Nat
  | .str s => s.data.length
  | .stream es => es.length

/-- Embeds `handleGet(args)`: bulk value or the null bulk string. -/
def handleGet (m : JsMap) (now : Nat) (args : List String) :
    List Char × JsMap :=
  let key := args.getD 0 ""
  match HashTable.get m now key with
  | (none, m') => (Encoder.nullBulkString, m')
  | (some v, m') =>
    ('$' :: natToChars (jsValueLength v) ++ crlf ++ (jsValueToString v).data ++
      crlf, m')

/-- Embeds `handleInfo(args)`: the replication section, else an empty bulk. -/
def handleInfo (offset : Nat) (args : List String) : List Char :=
  let sect := strToLower (args.getD 0 "")
  if sect = "replication" then
    Encoder.createBulkString ("role:master\nmaster_replid:" ++ masterReplId ++
      "\nmaster_repl_offset:" ++ natToString offset).data
  else Encoder.createBulkString []

/-- Embeds `respondToWait()`: clear the timer, add the `WAIT` request's own byte
length to `masterReplOffset`, reply the ack count to the waiting client,
mark the wait done.  Dereferences `this.wait`. -/
def respondToWait (st : MasterState) :
    Except String (MasterState × List (Sink × List Char)) :=
  match st.wait with
  | none => .error "TypeError: Cannot read properties of undefined (reading 'timeout')"
  | some w =>
    .ok ({ st with
        masterReplOffset := st.masterReplOffset + w.request.length,
        wait := some { w with isDone := true, timerArmed := false } },
      [(.client w.socket, Encoder.createInteger w.numOfAckReplicas)])

/-- Embeds `acknowledgeReplica(replicaOffset)`: dereferences `this.wait` without a
guard; counts an ack when `replicaOffset >= masterReplOffset` and resolves
the wait once `numOfAckReplicas >= numOfReqReplicas`. -/
def acknowledgeReplica (st : MasterState) (replicaOffset : Option Nat) :
    Except String (MasterState × List (Sink × List Char)) :=
  match st.wait with
  | none => .error "TypeError: Cannot read properties of undefined (reading 'isDone')"
  | some w =>
    if w.isDone then .ok (st, [])
    else
      let qualifies := match replicaOffset with
        | some r => decide (st.masterReplOffset ≤ r)
        | none => false
      if qualifies then
        let w' := { w with numOfAckReplicas := w.numOfAckReplicas + 1 }
        let st' := { st with wait := some w' }
        if jsNumGeStr w'.numOfAckReplicas w'.numOfReqReplicas then
          respondToWait st'
        else .ok (st', [])
      else .ok (st, [])

/-- Embeds `handleReplconf(args, socket)` on the leader: `ACK n` feeds
`acknowledgeReplica(parseInt(n))`, anything else is answered `+OK`. -/
def handleReplconf (st : MasterState) (uid : Nat) (args : List String) :
    Except String (MasterState × List (Sink × List Char)) :=
  let arg := strToLower (args.getD 0 "")
  if arg = "ack" then acknowledgeReplica st (jsParseInt (args.getD 1 ""))
  else .ok (st, [(.client uid, Encoder.createSimpleString "OK".data)])

/-- The canonical empty-RDB payload (`emptyRDB` hex literal). -/
def emptyRDBHex : String :=
  "524544495330303131fa0972656469732d76657205372e322e30fa0a72656469732d62697473c040fa056374696d65c26d08bc65fa08757365642d6d656dc2b0c41000fa08616f662d62617365c000fff06e3bfec0ff5aa2"

/-- Hex-digit value (lowercase hex, as the literal is). -/
def hexDigitVal (c : Char) : Nat :=
  if c.isDigit then c.toNat - 48 else c.toNat - 87

/-- Embeds `Buffer.from(hex, "hex")`. -/
def hexDecode : List Char → List Nat
  | a :: b :: rest => (16 * hexDigitVal a + hexDigitVal b) :: hexDecode rest
  | _ => []

/-- The `$<len>\r\n<bytes>` frame `handlePsync` returns (raw bytes carried
as characters of the same code). -/
def psyncFinalBuffer : List Char :=
  let bytes := hexDecode emptyRDBHex.data
  '$' :: natToChars bytes.length ++ crlf ++ bytes.map Char.ofNat

/-- The `+FULLRESYNC <replid> <offset>\r\n` line `handlePsync` writes. -/
def fullresyncLine (offset : Nat) : List Char :=
  Encoder.createSimpleString ("FULLRESYNC " ++ masterReplId ++ " " ++
    natToString offset).data

/-- Embeds `propagate(request)`: write the raw request to every connected replica
and add its byte length to `masterReplOffset`. -/
def propagate (st : MasterState) (request : List Char) :
    MasterState × List (Sink × List Char) :=
  ({ st with masterReplOffset := st.masterReplOffset + request.length },
    st.replicas.map (fun r => (.replica r, request)))

/-- The `REPLCONF GETACK *` frame `handleWait` broadcasts. -/
def getackFrame : List Char :=
  Encoder.createArray [Encoder.createBulkString "REPLCONF".data,
    Encoder.createBulkString "GETACK".data, Encoder.createBulkString "*".data]

/-- Embeds `handleWait(args, socket, request)`. -/
def handleWait (st : MasterState) (uid : Nat) (args : List String)
    (request : List Char) : MasterState × List (Sink × List Char) :=
  if st.replicas.length = 0 then (st, [(.client uid, Encoder.createInteger 0)])
  else if st.masterReplOffset = 0 then
    (st, [(.client uid, Encoder.createInteger st.replicas.length)])
  else
    let st' := { st with wait := some {
      numOfAckReplicas := 0,
      numOfReqReplicas := args.getD 0 "",
      socket := uid,
      isDone := false,
      request := request,
      timerArmed := true } }
    (st', st'.replicas.map (fun r => (.replica r, getackFrame)))

/-- Embeds `handleConfig(args)`: `[name, this.config[name]]`; a `null` config or
an unknown key makes the encoder throw on `undefined`. -/
def handleConfig (st : MasterState) (args : List String) :
    Except String (List Char) :=
  let arg := strToLower (args.getD 1 "")
  match st.config with
  | none => .error "TypeError: Cannot read properties of null"
  | some cfg =>
    match cfg.lookup arg with
    | none => .error "TypeError: string operation on undefined"
    | some v =>
      .ok (Encoder.createArray [Encoder.createBulkString arg.data,
        Encoder.createBulkString v.data])

/-- Embeds `handleKeys(args)`: `KEYS *` lists the raw map keys (no expiry sweep);
any other argument behaves like a `GET`. -/
def handleKeys (m : JsMap) (now : Nat) (args : List String) :
    List Char × JsMap :=
  let key := args.getD 0 ""
  if key = "*" then
    (Encoder.createArray ((HashTable.getAllKeys m).map
      (fun k => Encoder.createBulkString k.data)), m)
  else handleGet m now args

/-- Embeds `handleType(args)`: the `type` tag as a simple string, `none` when the
key is absent (or reaped). -/
def handleType (m : JsMap) (now : Nat) (args : List String) :
    List Char × JsMap :=
  let key := args.getD 0 ""
  match HashTable.getType m now key with
  | (some t, m') => (Encoder.createSimpleString t.data, m')
  | (none, m') => (Encoder.createSimpleString "none".data, m')

/-- Embeds `getXreadResponse(entries)`: null bulk for no entries, else the nested
key/entries array encoding. -/
def getXreadResponse (entries : List (String × List (String × List String))) :
    List Char :=
  if entries = [] then Encoder.nullBulkString
  else
    Encoder.createArray (entries.map (fun (key, es) =>
      Encoder.createArray [Encoder.createBulkString key.data,
        Encoder.createArray (es.map (fun (id, kvs) =>
          Encoder.createArray [Encoder.createBulkString id.data,
            Encoder.createArray (kvs.map
              (fun v => Encoder.createBulkString v.data))]))]))

/-- Embeds `checkBlock()`: when a live `XREAD BLOCK` waiter exists, re-evaluate it
against the keyspace and, on a non-empty result, reply and finish it
(clearing an armed timer). -/
def checkBlock (st : MasterState) : MasterState × List (Sink × List Char) :=
  match st.block with
  | none => (st, [])
  | some b =>
    if b.isDone then (st, [])
    else
      let entries := HashTable.getStreamAfter st.dataStore b.streamKeys b.startIds
      if entries = [] then (st, [])
      else
        ({ st with block := some { b with isDone := true, timerArmed := false } },
          [(.client b.socket, getXreadResponse entries)])

/-- Field-name positions of an `XADD` tail: every other argument starting
with the first (the loop reads `args[i]` as a name and `args[i + 1]` as a
value). -/
def fieldNames : List String → List String
  | [] => []
  | [k] => [k]
  | k :: _ :: rest => k :: fieldNames rest

/-- Embeds `handleXadd(args, socket)`: the entry object receives its `id`
property first (`streamEntry.id = args[1]`) and the field loop then
assigns into the *same* object (`streamEntry[entryKey] = entryValue`), so
a field literally named `"id"` overwrites the id that `insertStream`
arbitrates and stores.  The literal `0-0` check is made on `args[1]`
before the loop's effect is consulted; a `null` arbitration result
surfaces the regression error, otherwise the assigned id is returned as a
bulk string and `checkBlock` runs.  The object is carried as a
`StreamEntry` by reading its `id` property and its remaining properties in
insertion order, exactly how `insertStream` and `getStreamBetween` consume
it (`value.id`, and `Object.keys` skipping `"id"`). -/
def handleXadd (st : MasterState) (now : Nat) (uid : Nat)
    (args : List String) :
    Except String (MasterState × List (Sink × List Char)) := do
  let streamKey := args.getD 0 ""
  let streamEntryId := args.getD 1 ""
  let rec buildFields : List String → List (String × String) → List (String × String)
    | [], acc => acc
    | [k], acc => objSet acc k "undefined"
    | k :: v :: rest, acc => buildFields rest (objSet acc k v)
  let streamEntryObj := buildFields (args.drop 2) [("id", streamEntryId)]
  let streamEntry : StreamEntry :=
    ⟨(streamEntryObj.lookup "id").getD streamEntryId,
      streamEntryObj.filter (fun p => p.1 ≠ "id")⟩
  if streamEntryId = "0-0" then
    .ok (st, [(.client uid, Encoder.createSimpleError
      "ERR The ID specified in XADD must be greater than 0-0".data)])
  else
    let (entryId, m') ← HashTable.insertStream st.dataStore now streamKey streamEntry
    let st1 := { st with dataStore := m' }
    match entryId with
    | none =>
      .ok (st1, [(.client uid, Encoder.createSimpleError
        "ERR The ID specified in XADD is equal or smaller than the target stream top item".data)])
    | some eid =>
      let (st2, bouts) := checkBlock st1
      .ok (st2, (.client uid, Encoder.createBulkString eid.data) :: bouts)

/-- Embeds `handleXrange(args)`: bounds handed to `getStreamBetween`; an empty
result is the `"nil"` bulk string (note: not the null bulk). -/
def handleXrange (st : MasterState) (args : List String) :
    Except String (List Char) := do
  let streamKey := args.getD 0 ""
  let startId := args.getD 1 ""
  let endId := args.getD 2 ""
  let entries ← HashTable.getStreamBetween st.dataStore streamKey startId endId
  if entries = [] then .ok (Encoder.createBulkString "nil".data)
  else
    .ok (Encoder.createArray (entries.map (fun (id, kvs) =>
      Encoder.createArray [Encoder.createBulkString id.data,
        Encoder.createArray (kvs.map (fun v => Encoder.createBulkString v.data))])))

/-- Embeds `processStartIds(streamKeys, startIds)`: substitute `$` with the
stream's last id; the source dereferences `entries.slice(-1)[0]` even when
the stream is missing or empty, which throws. -/
def processStartIds (m : JsMap) (now : Nat) :
    List String → List String → Except String (List String × JsMap)
  | [], startIds => .ok (startIds, m)
  | _ :: _, [] => .ok ([], m)
  | key :: keys, startId :: startIds =>
    if startId ≠ "$" then do
      let (rest, m') ← processStartIds m now keys startIds
      .ok (startId :: rest, m')
    else
      match HashTable.get m now key with
      | (none, _) => .error "TypeError: Cannot read properties of null (reading 'slice')"
      | (some (.str _), _) => .error "TypeError: id of a string character"
      | (some (.stream es), m1) =>
        match es.getLast? with
        | none => .error "TypeError: Cannot read properties of undefined (reading 'id')"
        | some lastEntry => do
          let lastEntryIdMS := idPart0 lastEntry.id
          let lastEntryIdSeq := idPart1 lastEntry.id
          let newId := lastEntryIdMS ++ "-" ++
            (match lastEntryIdSeq.bind (fun s => jsParseInt s) with
             | some n => natToString n
             | none => "NaN")
          let (rest, m') ← processStartIds m1 now keys startIds
          .ok (newId :: rest, m')

/-- Embeds `handleXread(args, socket)`. -/
def handleXread (st : MasterState) (now : Nat) (uid : Nat)
    (args : List String) :
    Except String (MasterState × List (Sink × List Char)) :=
  if strToLower (args.getD 0 "") ≠ "block" then
    let rest := args.drop 1
    let mid := (rest.length + 1) / 2
    let streamKeys := rest.take mid
    let startIds := rest.drop mid
    let entries := HashTable.getStreamAfter st.dataStore streamKeys startIds
    .ok (st, [(.client uid, getXreadResponse entries)])
  else do
    let timeoutTime := jsParseInt (args.getD 1 "")
    let rest := args.drop 3
    let mid := (rest.length + 1) / 2
    let streamKeys := rest.take mid
    let startIds0 := rest.drop mid
    let (startIds, m') ← processStartIds st.dataStore now streamKeys startIds0
    let st1 := { st with dataStore := m', block := some {
      streamKeys := streamKeys,
      startIds := startIds,
      socket := uid,
      isDone := false,
      timerArmed := timeoutTime ≠ some 0 } }
    let (st2, bouts) := checkBlock st1
    .ok (st2, bouts)

/-- Register a replica uid (`this.replicas[uid] = ...`). -/
def addReplica (rs : List Nat) (uid : Nat) : List Nat :=
  if uid ∈ rs then rs else rs ++ [uid]

/-- Embeds `handleCommand(socket, args, request)`: the leader dispatch table.
Note that only the `set` case calls `propagate`. -/
def handleCommand (st : MasterState) (now : Nat) (uid : Nat)
    (args : List (List Char)) (request : List Char) :
    Except String (MasterState × List (Sink × List Char)) :=
  match args with
  | [] => .error "TypeError: Cannot read properties of undefined (reading 'toLowerCase')"
  | a0 :: _ =>
    let command : String := strToLower ⟨a0⟩
    let argsS : List String := (args.drop 1).map (fun l => ⟨l⟩)
    if command = "ping" then .ok (st, [(.client uid, handlePing)])
    else if command = "echo" then do
      let out ← handleEcho argsS
      .ok (st, [(.client uid, out)])
    else if command = "set" then
      let (out, m') := handleSet st.dataStore now argsS
      let (st2, pouts) := propagate { st with dataStore := m' } request
      .ok (st2, (.client uid, out) :: pouts)
    else if command = "get" then
      let (out, m') := handleGet st.dataStore now argsS
      .ok ({ st with dataStore := m' }, [(.client uid, out)])
    else if command = "info" then
      .ok (st, [(.client uid, handleInfo st.masterReplOffset argsS)])
    else if command = "replconf" then handleReplconf st uid argsS
    else if command = "psync" then
      .ok ({ st with replicas := addReplica st.replicas uid },
        [(.client uid, fullresyncLine st.masterReplOffset),
         (.client uid, psyncFinalBuffer)])
    else if command = "wait" then .ok (handleWait st uid argsS request)
    else if command = "config" then do
      let out ← handleConfig st argsS
      .ok (st, [(.client uid, out)])
    else if command = "keys" then
      let (out, m') := handleKeys st.dataStore now argsS
      .ok ({ st with dataStore := m' }, [(.client uid, out)])
    else if command = "type" then
      let (out, m') := handleType st.dataStore now argsS
      .ok ({ st with dataStore := m' }, [(.client uid, out)])
    else if command = "xadd" then handleXadd st now uid argsS
    else if command = "xrange" then do
      let out ← handleXrange st argsS
      .ok (st, [(.client uid, out)])
    else if command = "xread" then handleXread st now uid argsS
    else .ok (st, [])

end MasterServer

/-! ## SlaveServer (src: SlaveServer.js) -/

namespace SlaveServer

/-- Embeds `handleReplconf(args)` on the follower: always the
`REPLCONF ACK <masterOffset>` array. -/
def handleReplconf (masterOffset : Nat) : List Char :=
  Encoder.createArray [Encoder.createBulkString "REPLCONF".data,
    Encoder.createBulkString "ACK".data,
    Encoder.createBulkString (natToString masterOffset).data]

/-- Embeds `handleSet(args)` on the follower (no reply). -/
def handleSet (m : JsMap) (now : Nat) (args : List String) : JsMap :=
  let key := args.getD 0 ""
  let value := args.getD 1 ""
  if args.length = 2 then HashTable.insert m now key value
  else HashTable.insertWithExpiry m now key value (jsParseInt (args.getD 3 ""))

/-- Embeds `handleGet(args)` on the follower. -/
def handleGet (m : JsMap) (now : Nat) (args : List String) :
    List Char × JsMap :=
  MasterServer.handleGet m now args

/-- Embeds `handleInfo(args)` on the follower: `role:slave` for the replication
section; any other section leaves `response` `undefined` and the write
throws. -/
def handleInfo (args : List String) : Except String (List Char) :=
  if strToLower (args.getD 0 "") = "replication" then
    .ok (Encoder.createBulkString "role:slave".data)
  else .error "TypeError: write of undefined"

/-- Embeds `handleCommand(socket, args, request)` on the follower: only `info`,
`set`, `get` and `replconf` are dispatched; the socket written to is the
one the request arrived on (the master socket, in the replication loop).
Returns the new keyspace and the writes. -/
def handleCommand (m : JsMap) (masterOffset : Nat) (now : Nat)
    (args : List (List Char)) :
    Except String (JsMap × List (List Char)) :=
  match args with
  | [] => .error "TypeError: Cannot read properties of undefined (reading 'toLowerCase')"
  | a0 :: _ =>
    let command : String := strToLower ⟨a0⟩
    let argsS : List String := (args.drop 1).map (fun l => ⟨l⟩)
    if command = "info" then do
      let out ← handleInfo argsS
      .ok (m, [out])
    else if command = "set" then .ok (handleSet m now argsS, [])
    else if command = "get" then
      let (out, m') := handleGet m now argsS
      .ok (m', [out])
    else if command = "replconf" then .ok (m, [handleReplconf masterOffset])
    else .ok (m, [])

/-- The `while` loop of `processMasterBuffer()`: parse a frame, dispatch
it, then add the consumed slice's length to `masterOffset`; stop when the
parser makes no progress.  `fuel` bounds the iteration count (each
successful parse consumes at least one character, so
`buffer.length + 1` fuel is never exhausted). -/
def processLoop (now : Nat) (req : List Char) :
    Nat → Nat → Nat → JsMap →
    Except String (Nat × JsMap × List (List Char) × Nat)
  | 0, _, _, _ => .error "loop fuel exhausted"
  | fuel + 1, cursor, offset, m =>
    let (args, cursor') := RequestParser.parseFrom req cursor
    if args = [] then .ok (offset, m, [], cursor')
    else do
      let currentRequest := RequestParser.currentRequest req cursor cursor'
      let (m', outs) ← handleCommand m offset now args
      let (offset', m'', outs', cursor'') ←
        processLoop now req fuel cursor' (offset + currentRequest.length) m'
      .ok (offset', m'', outs ++ outs', cursor'')

/-- Follower state for the replication stream. -/
structure SlaveState where
  dataStore : JsMap
  masterOffset : Nat
  masterBuffer : List Char
  deriving DecidableEq

/-- Embeds `processMasterBuffer()`: run the loop over the accumulated master
bytes, keep the unconsumed tail.  Returns the new state and the bytes
written to the master socket. -/
def processMasterBuffer (st : SlaveState) (now : Nat) :
    Except String (SlaveState × List (List Char)) := do
  let (offset', m', outs, cursor) ←
    processLoop now st.masterBuffer (st.masterBuffer.length + 1) 0
      st.masterOffset st.dataStore
  let st' : SlaveState :=
    { dataStore := m'
      masterOffset := offset'
      masterBuffer := RequestParser.getRemainingRequest st.masterBuffer cursor }
  .ok (st', outs)

/-- Specification-side account of the follower's ack values, for the
amended offset claim: scanning the master-propagated frames in order with
a running byte offset, each `REPLCONF` frame is answered with
`REPLCONF ACK <offset-before-this-frame>` — i.e. the count is *exclusive*
of the frame carrying the `GETACK` — and every frame then advances the
offset by its own encoded length. -/
def slaveAckStreamSpec : Nat → List (List (List Char)) → List (List Char)
  | _, [] => []
  | off, f :: rest =>
    (if jsToLower (f.headD []) = "replconf".data
      then [SlaveServer.handleReplconf off] else []) ++
      slaveAckStreamSpec (off + (Encoder.encodeArgs f).length) rest

end SlaveServer

end Redis

/-! # Proof development

General lemmas about the embedded definitions, followed by one theorem per
specification claim (with witnesses and counterexamples). -/

open Redis Redis.RequestParser

theorem isDigit_ne_cr {c : Char} (h : c.isDigit) : c ≠ '\r' := by
  intro hc; subst hc; simp [Char.isDigit] at h

theorem digitChar_facts : ∀ m < 10, (Nat.digitChar m).isDigit ∧ digitVal (Nat.digitChar m) = m := by
  decide

theorem natToCharsAux_irrel (f1 : Nat) :
    ∀ (f2 n : Nat), n < f1 → n < f2 → natToCharsAux f1 n = natToCharsAux f2 n := by
  induction f1 with
  | zero => intro f2 n h1; omega
  | succ f1 ih =>
    intro f2 n h1 h2
    cases f2 with
    | zero => omega
    | succ f2 =>
      show natToCharsAux (f1 + 1) n = natToCharsAux (f2 + 1) n
      unfold natToCharsAux
      by_cases hn : n < 10
      · simp [hn]
      · simp only [hn, if_false, reduceIte]
        rw [ih f2 (n / 10) (by omega) (by omega)]

theorem natToChars_eq (n : Nat) :
    natToChars n = if n < 10 then [Nat.digitChar n]
      else natToChars (n / 10) ++ [Nat.digitChar (n % 10)] := by
  unfold natToChars
  conv => lhs; unfold natToCharsAux
  by_cases hn : n < 10
  · simp [hn]
  · simp only [hn, if_false, reduceIte]
    rw [natToCharsAux_irrel n (n / 10 + 1) (n / 10) (by omega) (by omega)]

theorem natToChars_digits : ∀ n, ∀ c ∈ natToChars n, c.isDigit := by
  intro n
  induction n using Nat.strong_induction_on with
  | _ n ih =>
    rw [natToChars_eq]
    split
    · intro c hc
      simp only [List.mem_singleton] at hc
      subst hc
      exact (digitChar_facts n (by omega)).1
    · intro c hc
      rw [List.mem_append] at hc
      rcases hc with h1 | h2
      · exact ih (n / 10) (Nat.div_lt_self (by omega) (by omega)) c h1
      · simp only [List.mem_singleton] at h2
        subst h2
        exact (digitChar_facts (n % 10) (Nat.mod_lt _ (by omega))).1

theorem digitsVal_append (acc : Nat) (xs ys : List Char) :
    digitsVal acc (xs ++ ys) = digitsVal (digitsVal acc xs) ys := by
  simp [digitsVal, List.foldl_append]

theorem digitsVal_natToChars (acc n : Nat) :
    digitsVal acc (natToChars n) = acc * 10 ^ (natToChars n).length + n := by
  induction n using Nat.strong_induction_on generalizing acc with
  | _ n ih =>
    rw [natToChars_eq]
    split
    · next h =>
      simp [digitsVal, List.foldl, (digitChar_facts n h).2]
    · next h =>
      rw [digitsVal_append]
      rw [ih (n / 10) (Nat.div_lt_self (by omega) (by omega))]
      simp only [digitsVal, List.foldl, (digitChar_facts (n % 10) (Nat.mod_lt _ (by omega))).2,
        List.length_append, List.length_singleton]
      calc (acc * 10 ^ (natToChars (n / 10)).length + n / 10) * 10 + n % 10
          = acc * (10 ^ (natToChars (n / 10)).length * 10) + (n / 10 * 10 + n % 10) := by ring
        _ = acc * 10 ^ ((natToChars (n / 10)).length + 1) + n := by
            have hdm : n / 10 * 10 + n % 10 = n := by omega
            rw [hdm, pow_succ]

theorem readNum_drop_nil {req : List Char} {c : Nat} (num : Nat)
    (h : req.drop c = []) : readNum req c num = .error () := by
  unfold readNum
  rw [h]
  rfl

theorem readNum_drop_cons {req : List Char} {c : Nat} {ch : Char}
    {tl : List Char} (num : Nat) (h : req.drop c = ch :: tl) :
    readNum req c num = if ch = '\r' then .ok (num, c + 2)
      else readNum req (c + 1) (num * 10 + digitVal ch) := by
  have htl : req.drop (c + 1) = tl := by
    have h1 : req.drop (c + 1) = (req.drop c).drop 1 := by
      rw [List.drop_drop]
    rw [h1, h]
    rfl
  unfold readNum
  rw [h, htl]
  rfl

theorem readNum_digits_ok (ds : List Char) (hds : ∀ c ∈ ds, c.isDigit) :
    ∀ (pre rest : List Char) (acc : Nat),
    readNum (pre ++ ds ++ '\r' :: rest) pre.length acc =
      .ok (digitsVal acc ds, pre.length + ds.length + 2) := by
  induction ds with
  | nil =>
    intro pre rest acc
    have hdrop : (pre ++ [] ++ '\r' :: rest).drop pre.length = '\r' :: rest := by
      simp [List.drop_left]
    rw [readNum_drop_cons acc hdrop]
    simp [digitsVal]
  | cons d ds ih =>
    intro pre rest acc
    have hd : d.isDigit := hds d (by simp)
    have hdrop : (pre ++ (d :: ds) ++ '\r' :: rest).drop pre.length = d :: (ds ++ '\r' :: rest) := by
      rw [List.append_assoc, List.drop_left]
      simp
    rw [readNum_drop_cons acc hdrop]
    simp only [isDigit_ne_cr hd, if_false, reduceCtorEq, ite_false]
    have hshape : pre ++ (d :: ds) ++ '\r' :: rest = (pre ++ [d]) ++ ds ++ '\r' :: rest := by
      simp [List.append_assoc]
    have hlen : pre.length + 1 = (pre ++ [d]).length := by simp
    rw [hshape, hlen, ih (fun c hc => hds c (by simp [hc])) (pre ++ [d]) rest]
    have hdv : digitsVal acc (d :: ds) = digitsVal (acc * 10 + digitVal d) ds := rfl
    simp [hdv]
    omega

theorem readNum_no_cr_fail (ds : List Char) (hds : ∀ c ∈ ds, c.isDigit) :
    ∀ (pre : List Char) (acc : Nat),
    readNum (pre ++ ds) pre.length acc = .error () := by
  induction ds with
  | nil =>
    intro pre acc
    have hdrop : (pre ++ []).drop pre.length = [] := by simp
    rw [readNum_drop_nil acc hdrop]
  | cons d ds ih =>
    intro pre acc
    have hd : d.isDigit := hds d (by simp)
    have hdrop : (pre ++ d :: ds).drop pre.length = d :: ds := by
      simp [List.drop_left]
    rw [readNum_drop_cons acc hdrop]
    simp only [isDigit_ne_cr hd, if_false, reduceCtorEq, ite_false]
    have hshape : pre ++ d :: ds = (pre ++ [d]) ++ ds := by simp
    have hlen : pre.length + 1 = (pre ++ [d]).length := by simp
    rw [hshape, hlen, ih (fun c hc => hds c (by simp [hc])) (pre ++ [d])]

theorem readNum_take_fail (ds : List Char) (hds : ∀ c ∈ ds, c.isDigit)
    (pre rest : List Char) (acc m : Nat)
    (hm : m ≤ pre.length + ds.length) :
    readNum ((pre ++ ds ++ rest).take m) pre.length acc = .error () := by
  have hsplit : (pre ++ ds ++ rest).take m = (pre ++ ds).take m := by
    exact List.take_append_of_le_length (by simp; omega)
  rw [hsplit]
  by_cases hc : m ≤ pre.length
  · apply readNum_drop_nil
    apply List.drop_eq_nil_of_le
    calc ((pre ++ ds).take m).length ≤ m := by simp
      _ ≤ pre.length := hc
  · have htk : (pre ++ ds).take m = pre ++ ds.take (m - pre.length) := by
      rw [List.take_append_eq_append_take, List.take_of_length_le (by omega)]
    rw [htk]
    have := readNum_no_cr_fail (ds.take (m - pre.length))
      (fun c hc => hds c (List.mem_of_mem_take hc)) pre acc
    exact this

theorem curr_at (pre tl : List Char) (ch : Char) :
    curr (pre ++ ch :: tl) pre.length = .ok ch := by
  unfold curr
  rw [List.drop_left]

theorem curr_past_end (req : List Char) (c : Nat) (h : req.length ≤ c) :
    curr req c = .error () := by
  unfold curr
  rw [List.drop_eq_nil_of_le h]

theorem length_bulkCore (s : List Char) :
    (bulkCore s).length = (natToChars s.length).length + s.length + 3 := by
  simp [bulkCore, crlf]
  omega

theorem readBulkString_ok (pre s suffix : List Char) :
    readBulkString (pre ++ bulkCore s ++ suffix) pre.length =
      .ok (s, pre.length + (bulkCore s).length + 2) := by
  have hshape1 : pre ++ bulkCore s ++ suffix =
      pre ++ '$' :: ((natToChars s.length ++ crlf ++ s) ++ suffix) := by
    simp [bulkCore]
  unfold readBulkString
  rw [hshape1, curr_at]
  simp only [Bind.bind, Except.bind, if_true, reduceIte]
  have hshape2 : pre ++ '$' :: ((natToChars s.length ++ crlf ++ s) ++ suffix) =
      (pre ++ ['$']) ++ natToChars s.length ++ '\r' :: ('\n' :: (s ++ suffix)) := by
    simp [crlf]
  have hlen1 : pre.length + 1 = (pre ++ ['$']).length := by simp
  rw [hshape2, hlen1,
    readNum_digits_ok (natToChars s.length) (natToChars_digits s.length) _ _ 0]
  have hdv : digitsVal 0 (natToChars s.length) = s.length := by
    rw [digitsVal_natToChars]; simp
  rw [hdv]
  simp only [Bind.bind, Except.bind]
  unfold getString
  have hshape3 : (pre ++ ['$']) ++ natToChars s.length ++ '\r' :: ('\n' :: (s ++ suffix)) =
      (pre ++ '$' :: natToChars s.length ++ crlf) ++ (s ++ suffix) := by
    simp [crlf]
  have hlen2 : (pre ++ '$' :: natToChars s.length ++ crlf).length =
      (pre ++ ['$']).length + (natToChars s.length).length + 2 := by
    simp [crlf]
    omega
  rw [hshape3]
  have hnotlt : ¬ ((pre ++ '$' :: natToChars s.length ++ crlf) ++ (s ++ suffix)).length <
      (pre ++ ['$']).length + (natToChars s.length).length + 2 + s.length := by
    simp [crlf]
    omega
  rw [if_neg hnotlt]
  rw [← hlen2, List.drop_left]
  have htake : (s ++ suffix).take s.length = s := List.take_left s suffix
  rw [htake]
  have hfin : (pre ++ '$' :: natToChars s.length ++ crlf).length + s.length + 2 =
      pre.length + (bulkCore s).length + 2 := by
    rw [length_bulkCore]; simp [crlf]; omega
  rw [hfin]

theorem readBulkString_take_fail (pre s suffix : List Char) (m : Nat)
    (hm : m < pre.length + (bulkCore s).length) :
    readBulkString ((pre ++ bulkCore s ++ suffix).take m) pre.length = .error () := by
  have hT : pre ++ bulkCore s ++ suffix =
      (pre ++ ['$']) ++ natToChars s.length ++ ('\r' :: '\n' :: (s ++ suffix)) := by
    simp [bulkCore, crlf]
  rw [hT]
  set nc := natToChars s.length with hnc
  set d := nc.length with hd
  have hbc : (bulkCore s).length = d + s.length + 3 := length_bulkCore s
  by_cases hA : m ≤ pre.length
  · unfold readBulkString
    have hlen : (((pre ++ ['$']) ++ nc ++ ('\r' :: '\n' :: (s ++ suffix))).take m).length ≤ pre.length := by
      calc (((pre ++ ['$']) ++ nc ++ ('\r' :: '\n' :: (s ++ suffix))).take m).length ≤ m :=
            List.length_take_le m _
        _ ≤ pre.length := hA
    rw [curr_past_end _ _ hlen]
    simp [Bind.bind, Except.bind]
  · push_neg at hA
    -- the cursor's character is '$'
    have hT2 : (pre ++ ['$']) ++ nc ++ ('\r' :: '\n' :: (s ++ suffix)) =
        pre ++ '$' :: (nc ++ '\r' :: '\n' :: (s ++ suffix)) := by simp
    obtain ⟨k, hk⟩ : ∃ k, m - pre.length = k + 1 := ⟨m - pre.length - 1, by omega⟩
    have hdropm : ((((pre ++ ['$']) ++ nc ++ ('\r' :: '\n' :: (s ++ suffix))).take m)).drop pre.length =
        '$' :: ((nc ++ '\r' :: '\n' :: (s ++ suffix)).take k) := by
      rw [List.drop_take, hT2, List.drop_left, hk]
      rfl
    unfold readBulkString
    unfold curr
    rw [hdropm]
    simp only [Bind.bind, Except.bind, reduceIte]
    have hlen1 : pre.length + 1 = (pre ++ ['$']).length := by simp
    rw [hlen1]
    by_cases hB1 : m ≤ (pre ++ ['$']).length + d
    · rw [readNum_take_fail nc (natToChars_digits s.length) (pre ++ ['$'])
        ('\r' :: '\n' :: (s ++ suffix)) 0 m (by simpa using hB1)]
    · push_neg at hB1
      have htkm : (((pre ++ ['$']) ++ nc ++ ('\r' :: '\n' :: (s ++ suffix))).take m) =
          (pre ++ ['$']) ++ nc ++ ('\r' :: (('\n' :: (s ++ suffix)).take (m - (pre.length + d + 2)))) := by
        rw [List.take_append_eq_append_take, List.take_append_eq_append_take,
          List.take_of_length_le (l := pre ++ ['$']) (by simp; omega),
          List.take_of_length_le (l := nc) (by simp; omega)]
        congr 1
        have hsub : m - (pre ++ ['$'] ++ nc).length = (m - (pre.length + d + 2)) + 1 := by
          simp; omega
        rw [hsub]
        rfl
      rw [htkm]
      rw [readNum_digits_ok nc (natToChars_digits s.length) (pre ++ ['$']) _ 0]
      simp only [Bind.bind, Except.bind]
      have hdv : digitsVal 0 nc = s.length := by
        rw [hnc, digitsVal_natToChars]; simp
      rw [hdv]
      unfold getString
      rw [if_pos]
      simp [crlf]
      omega

theorem createBulkString_eq_core (s : List Char) :
    Encoder.createBulkString s = bulkCore s ++ crlf := by
  simp [Encoder.createBulkString, bulkCore]

theorem bulkJoinCore_cons (s s2 : List Char) (rest : List (List Char)) :
    bulkJoinCore (s :: s2 :: rest) =
      Encoder.createBulkString s ++ bulkJoinCore (s2 :: rest) := by
  rfl

theorem flatten_bulk_eq_core (args : List (List Char)) (hne : args ≠ []) :
    (args.map Encoder.createBulkString).flatten = bulkJoinCore args ++ crlf := by
  induction args with
  | nil => cases hne rfl
  | cons s rest ih =>
    cases rest with
    | nil => simp [bulkJoinCore, createBulkString_eq_core]
    | cons s2 rest2 =>
      rw [bulkJoinCore_cons]
      have ih' := ih (by simp)
      simp only [List.map_cons, List.flatten_cons] at ih' ⊢
      rw [ih']
      simp [List.append_assoc]

theorem readArgs_ok (args : List (List Char)) :
    ∀ (pre ext : List Char), args ≠ [] →
    readArgs (pre ++ bulkJoinCore args ++ ext) args.length pre.length =
      .ok (args, pre.length + (bulkJoinCore args).length + 2) := by
  induction args with
  | nil => intro pre ext hne; cases hne rfl
  | cons s rest ih =>
    intro pre ext _
    cases rest with
    | nil =>
      show readArgs (pre ++ bulkJoinCore [s] ++ ext) 1 pre.length = _
      unfold readArgs
      have hbc : bulkJoinCore [s] = bulkCore s := rfl
      rw [hbc, readBulkString_ok]
      simp only [Bind.bind, Except.bind]
      unfold readArgs
      rfl
    | cons s2 rest2 =>
      show readArgs _ ((s2 :: rest2).length + 1) pre.length = _
      unfold readArgs
      rw [bulkJoinCore_cons, createBulkString_eq_core]
      have hshape : pre ++ ((bulkCore s ++ crlf) ++ bulkJoinCore (s2 :: rest2)) ++ ext =
          pre ++ bulkCore s ++ (crlf ++ bulkJoinCore (s2 :: rest2) ++ ext) := by
        simp [List.append_assoc]
      rw [hshape, readBulkString_ok]
      simp only [Bind.bind, Except.bind]
      have hcur : pre.length + (bulkCore s).length + 2 =
          (pre ++ bulkCore s ++ crlf).length := by
        simp [crlf]; omega
      have hshape2 : pre ++ bulkCore s ++ (crlf ++ bulkJoinCore (s2 :: rest2) ++ ext) =
          (pre ++ bulkCore s ++ crlf) ++ bulkJoinCore (s2 :: rest2) ++ ext := by
        simp [List.append_assoc]
      rw [hcur, hshape2, ih (pre ++ bulkCore s ++ crlf) ext (by simp)]
      simp only [Bind.bind, Except.bind, Except.ok.injEq, Prod.mk.injEq, true_and]
      simp [createBulkString_eq_core, crlf]
      omega

theorem readArgs_take_fail (args : List (List Char)) :
    ∀ (pre ext : List Char) (m : Nat), args ≠ [] →
    m < pre.length + (bulkJoinCore args).length →
    readArgs ((pre ++ bulkJoinCore args ++ ext).take m) args.length pre.length =
      .error () := by
  induction args with
  | nil => intro pre ext m hne; cases hne rfl
  | cons s rest ih =>
    intro pre ext m _ hm
    cases rest with
    | nil =>
      show readArgs _ 1 pre.length = _
      unfold readArgs
      have hbc : bulkJoinCore [s] = bulkCore s := rfl
      rw [hbc] at hm ⊢
      rw [readBulkString_take_fail pre s ext m hm]
      rfl
    | cons s2 rest2 =>
      show readArgs _ ((s2 :: rest2).length + 1) pre.length = _
      unfold readArgs
      rw [bulkJoinCore_cons, createBulkString_eq_core]
      have hshape : pre ++ ((bulkCore s ++ crlf) ++ bulkJoinCore (s2 :: rest2)) ++ ext =
          pre ++ bulkCore s ++ (crlf ++ bulkJoinCore (s2 :: rest2) ++ ext) := by
        simp [List.append_assoc]
      rw [hshape]
      by_cases hc : m < pre.length + (bulkCore s).length
      · rw [readBulkString_take_fail pre s _ m hc]
        rfl
      · push_neg at hc
        have htkm : (pre ++ bulkCore s ++ (crlf ++ bulkJoinCore (s2 :: rest2) ++ ext)).take m =
            pre ++ bulkCore s ++
              ((crlf ++ bulkJoinCore (s2 :: rest2) ++ ext).take
                (m - (pre.length + (bulkCore s).length))) := by
          rw [List.take_append_eq_append_take,
            List.take_of_length_le (l := pre ++ bulkCore s) (by simp; omega)]
          congr 1
          simp
        rw [htkm, readBulkString_ok]
        simp only [Bind.bind, Except.bind]
        have hT' : (pre ++ bulkCore s ++ crlf) ++ bulkJoinCore (s2 :: rest2) ++ ext =
            pre ++ bulkCore s ++ (crlf ++ bulkJoinCore (s2 :: rest2) ++ ext) := by
          simp [List.append_assoc]
        have h2 : pre ++ bulkCore s ++
            ((crlf ++ bulkJoinCore (s2 :: rest2) ++ ext).take
              (m - (pre.length + (bulkCore s).length))) =
            ((pre ++ bulkCore s ++ crlf) ++ bulkJoinCore (s2 :: rest2) ++ ext).take m := by
          rw [hT']
          exact htkm.symm
        have hcur : pre.length + (bulkCore s).length + 2 =
            (pre ++ bulkCore s ++ crlf).length := by
          simp [crlf]; omega
        have hless : m < (pre ++ bulkCore s ++ crlf).length +
            (bulkJoinCore (s2 :: rest2)).length := by
          rw [bulkJoinCore_cons, createBulkString_eq_core] at hm
          simp [crlf] at hm ⊢
          omega
        rw [h2, hcur, ih (pre ++ bulkCore s ++ crlf) ext m (by simp) hless]

theorem encodeArgs_eq_frameCore (args : List (List Char)) (h : args ≠ []) :
    Encoder.encodeArgs args = frameCore args ++ crlf := by
  unfold Encoder.encodeArgs Encoder.createArray frameCore
  rw [flatten_bulk_eq_core args h]
  simp [List.append_assoc]

theorem length_frameCore (args : List (List Char)) :
    (frameCore args).length =
      (natToChars args.length).length + (bulkJoinCore args).length + 3 := by
  simp [frameCore, crlf]
  omega

theorem parseFrom_ok (args : List (List Char)) (pre ext : List Char)
    (h : args ≠ []) :
    parseFrom (pre ++ frameCore args ++ ext) pre.length =
      (args, pre.length + (frameCore args).length + 2) := by
  unfold parseFrom
  have hshape : pre ++ frameCore args ++ ext =
      pre ++ '*' :: ((natToChars args.length ++ crlf ++ bulkJoinCore args) ++ ext) := by
    simp [frameCore]
  rw [hshape, curr_at]
  simp only [Bind.bind, Except.bind, reduceIte]
  have hshape2 : pre ++ '*' :: ((natToChars args.length ++ crlf ++ bulkJoinCore args) ++ ext) =
      (pre ++ ['*']) ++ natToChars args.length ++ '\r' :: ('\n' :: (bulkJoinCore args ++ ext)) := by
    simp [crlf]
  have hlen1 : pre.length + 1 = (pre ++ ['*']).length := by simp
  rw [hshape2, hlen1, readNum_digits_ok _ (natToChars_digits args.length) _ _ 0]
  simp only [Bind.bind, Except.bind]
  have hdv : digitsVal 0 (natToChars args.length) = args.length := by
    rw [digitsVal_natToChars]; simp
  rw [hdv]
  have hshape3 : (pre ++ ['*']) ++ natToChars args.length ++
      '\r' :: ('\n' :: (bulkJoinCore args ++ ext)) =
      (pre ++ '*' :: natToChars args.length ++ crlf) ++ bulkJoinCore args ++ ext := by
    simp [crlf]
  have hcur : (pre ++ ['*']).length + (natToChars args.length).length + 2 =
      (pre ++ '*' :: natToChars args.length ++ crlf).length := by
    simp [crlf]; omega
  rw [hshape3, hcur, readArgs_ok args _ ext h]
  have hfin : (pre ++ '*' :: natToChars args.length ++ crlf).length +
      (bulkJoinCore args).length + 2 = pre.length + (frameCore args).length + 2 := by
    rw [length_frameCore]
    simp [crlf]
    omega
  rw [hfin]

theorem parseFrom_take_fail (args : List (List Char)) (ext : List Char)
    (m : Nat) (h : args ≠ []) (hm : m < (frameCore args).length) :
    parseFrom ((frameCore args ++ ext).take m) 0 = ([], 0) := by
  unfold parseFrom
  set nc := natToChars args.length with hnc
  set d := nc.length with hd
  rcases Nat.eq_zero_or_pos m with hm0 | hmpos
  · subst hm0
    rw [curr_past_end _ _ (by simp)]
    rfl
  · have hT : frameCore args ++ ext =
        '*' :: (nc ++ '\r' :: '\n' :: (bulkJoinCore args ++ ext)) := by
      simp [frameCore, crlf]
    obtain ⟨k, hk⟩ : ∃ k, m = k + 1 := ⟨m - 1, by omega⟩
    have hdropm : (((frameCore args ++ ext).take m)).drop 0 =
        '*' :: ((nc ++ '\r' :: '\n' :: (bulkJoinCore args ++ ext)).take k) := by
      rw [List.drop_zero, hT, hk]
      rfl
    unfold curr
    rw [hdropm]
    simp only [Bind.bind, Except.bind, reduceIte]
    have hc1 : (0 : Nat) + 1 = (['*'] : List Char).length := by simp
    have hTk : ((frameCore args ++ ext).take m) =
        ((['*'] ++ nc ++ ('\r' :: '\n' :: (bulkJoinCore args ++ ext))).take m) := by
      rw [hT]
      rfl
    rw [hTk, hc1]
    by_cases hB1 : m ≤ (['*'] : List Char).length + d
    · rw [readNum_take_fail nc (natToChars_digits args.length) ['*']
        ('\r' :: '\n' :: (bulkJoinCore args ++ ext)) 0 m (by simpa using hB1)]
    · push_neg at hB1
      have htkm : ((['*'] ++ nc ++ ('\r' :: '\n' :: (bulkJoinCore args ++ ext))).take m) =
          ['*'] ++ nc ++ ('\r' :: (('\n' :: (bulkJoinCore args ++ ext)).take (m - (d + 2)))) := by
        rw [List.take_append_eq_append_take,
          List.take_of_length_le (l := ['*'] ++ nc) (by simp; omega)]
        congr 1
        have hsub : m - (['*'] ++ nc).length = (m - (d + 2)) + 1 := by
          simp; omega
        rw [hsub]
        rfl
      rw [htkm, readNum_digits_ok nc (natToChars_digits args.length) ['*'] _ 0]
      simp only [Bind.bind, Except.bind]
      have hdv : digitsVal 0 nc = args.length := by
        rw [hnc, digitsVal_natToChars]; simp
      rw [hdv]
      have hT2 : ((('*' :: nc ++ crlf) ++ bulkJoinCore args ++ ext).take m) =
          ['*'] ++ nc ++ ('\r' :: (('\n' :: (bulkJoinCore args ++ ext)).take (m - (d + 2)))) := by
        have hassoc : ('*' :: nc ++ crlf) ++ bulkJoinCore args ++ ext =
            (['*'] ++ nc) ++ ('\r' :: '\n' :: (bulkJoinCore args ++ ext)) := by
          simp [crlf]
        rw [hassoc, List.take_append_eq_append_take,
          List.take_of_length_le (l := ['*'] ++ nc) (by simp; omega)]
        congr 1
        have hsub : m - (['*'] ++ nc).length = (m - (d + 2)) + 1 := by
          simp; omega
        rw [hsub]
        rfl
      rw [← hT2]
      have hcur : (['*'] : List Char).length + nc.length + 2 =
          ('*' :: nc ++ crlf).length := by
        simp [crlf]
        omega
      rw [hcur, readArgs_take_fail args ('*' :: nc ++ crlf) ext m h
        (by rw [length_frameCore, ← hnc] at hm; simp [crlf] at hm ⊢; omega)]

/-! ## Claim theorems -/


theorem mapGet_mapSet_self (m : JsMap) (k : String) (e : MapEntry) :
    mapGet (mapSet m k e) k = some e := by
  induction m with
  | nil => simp [mapSet, mapGet]
  | cons p rest ih =>
    obtain ⟨k', e'⟩ := p
    by_cases h : k' = k <;> simp [mapSet, mapGet, h, ih]

theorem mapGet_eq_none_of_not_mem (m : JsMap) (k : String)
    (h : k ∉ m.map (·.1)) : mapGet m k = none := by
  induction m with
  | nil => rfl
  | cons p rest ih =>
    obtain ⟨k', e'⟩ := p
    simp only [List.map_cons, List.mem_cons] at h
    push_neg at h
    have hne : ¬ k' = k := fun he => h.1 he.symm
    simp [mapGet, hne, ih h.2]

theorem keys_mapSet (m : JsMap) (k : String) (e : MapEntry) :
    (mapSet m k e).map (·.1) =
      if k ∈ m.map (·.1) then m.map (·.1) else m.map (·.1) ++ [k] := by
  induction m with
  | nil => simp [mapSet]
  | cons p rest ih =>
    obtain ⟨k', e'⟩ := p
    by_cases h : k' = k
    · subst h
      simp [mapSet]
    · simp only [mapSet, if_neg h, List.map_cons, ih]
      by_cases hmem : k ∈ rest.map (·.1)
      · simp [hmem, Ne.symm h]
      · simp [hmem, Ne.symm h]

theorem mapWF_mapSet (m : JsMap) (k : String) (e : MapEntry) (h : mapWF m) :
    mapWF (mapSet m k e) := by
  unfold mapWF at h ⊢
  rw [keys_mapSet]
  split
  · exact h
  · next hmem =>
    simp [List.nodup_append, h, hmem]

theorem mapGet_mapDelete_self (m : JsMap) (k : String) (h : mapWF m) :
    mapGet (mapDelete m k) k = none := by
  induction m with
  | nil => rfl
  | cons p rest ih =>
    obtain ⟨k', e'⟩ := p
    unfold mapWF at h
    simp only [List.map_cons, List.nodup_cons] at h
    by_cases hk : k' = k
    · subst hk
      simp only [mapDelete, if_pos rfl]
      exact mapGet_eq_none_of_not_mem rest k' h.1
    · simp [mapDelete, hk, mapGet, ih h.2]

deriving instance DecidableEq for Except

/-- C9: on a leader with no pending `WAIT` (`this.wait` is `undefined`),
an inbound `REPLCONF ACK 31` makes `acknowledgeReplica` dereference
`this.wait.isDone` and throw a `TypeError` — the handler faults instead of
leaving the state unchanged, so the claim describes the intended behavior
and the code contradicts it. -/
theorem c9_replconf_ack_without_wait_faults :
    MasterServer.handleReplconf ⟨[], 0, [7], none, none, none⟩ 1 ["ACK", "31"] =
      .error "TypeError: Cannot read properties of undefined (reading 'isDone')" := by
  decide

/-- C10 counterexample: on the buffer `[0x80, 1, 0, 0, 0]` (first byte has
top bits `10`), the loader decodes the length `1` — the little-endian
reading of the next four bytes — whereas the claim's big-endian reading of
`01 00 00 00` would be `16777216`. -/
theorem c10_counterexample :
    RDBParser.readLengthEncoding [128, 1, 0, 0, 0] 0 = .ok (("length", 1), 5) ∧
    (1 : Nat) ≠ 16777216 := by
  constructor
  · decide
  · decide

/-- C10 amended: in the RDB loader's length encoding, a first byte with
top two bits `10` is followed by 4 bytes read as a **little-endian**
unsigned integer (`readUInt32LE`). -/
theorem c10_length_10_reads_4_bytes_little_endian
    (pre post : List Nat) (b0 x0 x1 x2 x3 : Nat) (h : b0 / 64 = 2) :
    RDBParser.readLengthEncoding (pre ++ b0 :: x0 :: x1 :: x2 :: x3 :: post)
      pre.length =
      .ok (("length", x0 + 256 * x1 + 65536 * x2 + 16777216 * x3),
        pre.length + 1 + 4) := by
  have hget : ∀ (i : Nat) (xs : List Nat),
      (pre ++ xs).getD (pre.length + i) 0 = xs.getD i 0 := by
    intro i xs
    rw [List.getD_eq_getElem?_getD, List.getD_eq_getElem?_getD,
      List.getElem?_append_right (by omega),
      show pre.length + i - pre.length = i from by omega]
  have h0 : (pre ++ b0 :: x0 :: x1 :: x2 :: x3 :: post).getD pre.length 0 = b0 := by
    have := hget 0 (b0 :: x0 :: x1 :: x2 :: x3 :: post)
    simpa using this
  have hr4 : RDBParser.read4Bytes (pre ++ b0 :: x0 :: x1 :: x2 :: x3 :: post)
      (pre.length + 1) =
      .ok (x0 + 256 * x1 + 65536 * x2 + 16777216 * x3, pre.length + 1 + 4) := by
    unfold RDBParser.read4Bytes
    rw [if_pos (by simp; omega)]
    rw [show pre.length + 1 + 1 = pre.length + 2 from by omega,
      show pre.length + 1 + 2 = pre.length + 3 from by omega,
      show pre.length + 1 + 3 = pre.length + 4 from by omega,
      hget 1, hget 2, hget 3, hget 4]
    rfl
  unfold RDBParser.readLengthEncoding RDBParser.readByte
  rw [h0]
  simp only [h]
  norm_num
  rw [hr4]
  rfl

/-- C10 witness: the amended little-endian theorem applied at the concrete
buffer `[10] ++ [130, 4, 3, 2, 1, 9]` from cursor 1. -/
theorem c10_witness :
    RDBParser.readLengthEncoding ([10] ++ 130 :: 4 :: 3 :: 2 :: 1 :: [9]) 1 =
      .ok (("length", 4 + 256 * 3 + 65536 * 2 + 16777216 * 1), 6) := by
  have h := c10_length_10_reads_4_bytes_little_endian [10] [9] 130 4 3 2 1 (by decide)
  simpa using h

/-- C8: `getStreamBetween` (and hence `XRANGE`) can never return the
claimed inclusive range for a present stream: the source calls
`entries.filteR(...)` — a typo for `filter` — so any key that exists in
the map raises a `TypeError` instead of filtering.  Evaluated here at the
failing input `XRANGE s - +` on a stream `s` holding the single entry
`5-0`; the spec (§9) documents the typo as a source bug and the inclusive
filter as the intent, so the claim is right and the code wrong. -/
theorem c8_xrange_filteR_typeerror :
    HashTable.getStreamBetween
        [("s", ⟨.stream [⟨"5-0", [("a", "1")]⟩], none⟩)] "s" "-" "+" =
      .error "TypeError: entries.filteR is not a function" ∧
    MasterServer.handleXrange
        ⟨[("s", ⟨.stream [⟨"5-0", [("a", "1")]⟩], none⟩)], 0, [], none, none, none⟩
        ["s", "-", "+"] =
      .error "TypeError: entries.filteR is not a function" := by
  constructor
  · decide
  · decide

/-- C7 counterexample: after `SET k v` (no `PX`) at instant 0, a `GET k`
at instant `86400001` (24 hours + 1 ms later) returns the null bulk
string, not `v` — the source's `insert` defaults the expiry to 24 hours
instead of "never". -/
theorem c7_counterexample :
    (MasterServer.handleGet ((MasterServer.handleSet [] 0 ["k", "v"]).2)
        86400001 ["k"]).1 = Encoder.nullBulkString ∧
    Encoder.nullBulkString ≠ Encoder.createBulkString "v".data := by
  constructor
  · decide
  · decide

/-- C7 amended: `SET k v` without `PX` stores the string with a default
expiry of 24 hours (`86400000` ms) after the set; `GET k` returns `v` at
any instant up to that deadline and the null bulk string at any instant
after it (as long as no other command touches `k`). -/
theorem c7_set_without_px_24h_default (m : JsMap) (k v : String) (t0 t1 : Nat) :
    (MasterServer.handleSet m t0 [k, v]).1 =
      Encoder.createSimpleString "OK".data ∧
    mapGet (MasterServer.handleSet m t0 [k, v]).2 k =
      some ⟨.str v, some (86400000 + t0)⟩ ∧
    (t1 ≤ 86400000 + t0 →
      (MasterServer.handleGet (MasterServer.handleSet m t0 [k, v]).2 t1 [k]).1 =
        Encoder.createBulkString v.data) ∧
    (86400000 + t0 < t1 →
      (MasterServer.handleGet (MasterServer.handleSet m t0 [k, v]).2 t1 [k]).1 =
        Encoder.nullBulkString) := by
  have hset : (MasterServer.handleSet m t0 [k, v]).2 =
      mapSet m k ⟨.str v, some (86400000 + t0)⟩ := by
    simp [MasterServer.handleSet, HashTable.insert, HashTable.insertWithExpiry,
      HashTable.insertKeyWithTimeStamp]
  refine ⟨by simp [MasterServer.handleSet], ?_, ?_, ?_⟩
  · rw [hset, mapGet_mapSet_self]
  · intro ht
    rw [hset]
    unfold MasterServer.handleGet HashTable.get HashTable.has
    simp only [List.getD_cons_zero, mapGet_mapSet_self]
    rw [if_neg (by omega)]
    simp [mapGet_mapSet_self, Encoder.createBulkString, MasterServer.jsValueLength,
      MasterServer.jsValueToString]
  · intro ht
    rw [hset]
    unfold MasterServer.handleGet HashTable.get HashTable.has
    simp only [List.getD_cons_zero, mapGet_mapSet_self]
    rw [if_pos (by omega)]

/-- C7 witness: the amended 24-hour-default theorem applied at a concrete
set/get pair on both sides of the deadline. -/
theorem c7_witness :
    (MasterServer.handleGet ((MasterServer.handleSet [] 0 ["k", "v"]).2)
        86400000 ["k"]).1 = Encoder.createBulkString "v".data ∧
    (MasterServer.handleGet ((MasterServer.handleSet [] 0 ["k", "v"]).2)
        86400001 ["k"]).1 = Encoder.nullBulkString := by
  constructor
  · exact (c7_set_without_px_24h_default [] "k" "v" 0 86400000).2.2.1 (by omega)
  · exact (c7_set_without_px_24h_default [] "k" "v" 0 86400001).2.2.2 (by omega)

/-- C6: `SET k v PX d` stores `v` with absolute expiry `d + t0`; a `GET k`
at an instant `t1 < t0 + d` returns `v`; at `t1 > t0 + d` the `GET`
returns the null bulk string (not an error), the expired entry is deleted
from the map by that observation, and a subsequent `TYPE k` replies
`+none`. -/
theorem c6_set_px_get_type_expiry (m : JsMap) (hwf : mapWF m)
    (k v ds : String) (d t0 t1 : Nat) (hds : jsParseInt ds = some d) :
    mapGet (MasterServer.handleSet m t0 [k, v, "px", ds]).2 k =
      some ⟨.str v, some (d + t0)⟩ ∧
    (t1 < t0 + d →
      (MasterServer.handleGet (MasterServer.handleSet m t0 [k, v, "px", ds]).2
          t1 [k]).1 = Encoder.createBulkString v.data) ∧
    (t0 + d < t1 →
      (MasterServer.handleGet (MasterServer.handleSet m t0 [k, v, "px", ds]).2
          t1 [k]).1 = Encoder.nullBulkString ∧
      mapGet (MasterServer.handleGet (MasterServer.handleSet m t0 [k, v, "px", ds]).2
          t1 [k]).2 k = none ∧
      (MasterServer.handleType
          (MasterServer.handleGet (MasterServer.handleSet m t0 [k, v, "px", ds]).2
            t1 [k]).2 t1 [k]).1 = Encoder.createSimpleString "none".data) := by
  have hset : (MasterServer.handleSet m t0 [k, v, "px", ds]).2 =
      mapSet m k ⟨.str v, some (d + t0)⟩ := by
    simp [MasterServer.handleSet, HashTable.insertWithExpiry,
      HashTable.insertKeyWithTimeStamp, hds]
  refine ⟨by rw [hset, mapGet_mapSet_self], ?_, ?_⟩
  · intro ht
    rw [hset]
    unfold MasterServer.handleGet HashTable.get HashTable.has
    simp only [List.getD_cons_zero, mapGet_mapSet_self]
    rw [if_neg (by omega)]
    simp [mapGet_mapSet_self, Encoder.createBulkString, MasterServer.jsValueLength,
      MasterServer.jsValueToString]
  · intro ht
    have hget2 : (MasterServer.handleGet (MasterServer.handleSet m t0 [k, v, "px", ds]).2
        t1 [k]) = (Encoder.nullBulkString, mapDelete (mapSet m k ⟨.str v, some (d + t0)⟩) k) := by
      rw [hset]
      unfold MasterServer.handleGet HashTable.get HashTable.has
      simp only [List.getD_cons_zero, mapGet_mapSet_self]
      rw [if_pos (by omega)]
    have hnone : mapGet (mapDelete (mapSet m k ⟨.str v, some (d + t0)⟩) k) k = none :=
      mapGet_mapDelete_self _ _ (mapWF_mapSet m k _ hwf)
    refine ⟨by rw [hget2], by rw [hget2]; exact hnone, ?_⟩
    rw [hget2]
    unfold MasterServer.handleType HashTable.getType HashTable.has
    simp only [List.getD_cons_zero, hnone]

/-- C6 witness: the expiry theorem applied at `SET x 1 PX 100` set at
instant 1000, observed at instants 1050 and 1201. -/
theorem c6_witness :
    (MasterServer.handleGet ((MasterServer.handleSet [] 1000 ["x", "1", "px", "100"]).2)
        1050 ["x"]).1 = Encoder.createBulkString "1".data ∧
    (MasterServer.handleGet ((MasterServer.handleSet [] 1000 ["x", "1", "px", "100"]).2)
        1201 ["x"]).1 = Encoder.nullBulkString ∧
    (MasterServer.handleType
        ((MasterServer.handleGet ((MasterServer.handleSet [] 1000 ["x", "1", "px", "100"]).2)
          1201 ["x"]).2) 1201 ["x"]).1 = Encoder.createSimpleString "none".data := by
  refine ⟨?_, ?_, ?_⟩
  · exact (c6_set_px_get_type_expiry [] (by decide) "x" "1" "100" 100 1000 1050
      (by decide)).2.1 (by omega)
  · exact ((c6_set_px_get_type_expiry [] (by decide) "x" "1" "100" 100 1000 1201
      (by decide)).2.2 (by omega)).1
  · exact ((c6_set_px_get_type_expiry [] (by decide) "x" "1" "100" 100 1000 1201
      (by decide)).2.2 (by omega)).2.2

/-- C2: leader `WAIT` behaviour.  With no connected replicas the reply is
the integer 0; with replicas but `masterReplOffset = 0` the reply is the
replica count; otherwise a wait record is registered (ack count 0, timer
armed, the raw `WAIT` request retained) and `REPLCONF GETACK *` is
broadcast to every replica.  Resolution (`respondToWait`, reached on
quorum or deadline) clears the timer, adds the byte length of the `WAIT`
request itself to `masterReplOffset`, and replies the ack count to the
waiting client; an inbound qualifying ack that reaches the quorum resolves
exactly that way. -/
theorem c2_wait_behaviour (st : MasterState) (uid : Nat) (args : List String)
    (request : List Char) (w : WaitRec) (n : Nat) :
    (st.replicas = [] →
      MasterServer.handleWait st uid args request =
        (st, [(.client uid, Encoder.createInteger 0)])) ∧
    (st.replicas ≠ [] → st.masterReplOffset = 0 →
      MasterServer.handleWait st uid args request =
        (st, [(.client uid, Encoder.createInteger st.replicas.length)])) ∧
    (st.replicas ≠ [] → st.masterReplOffset ≠ 0 →
      MasterServer.handleWait st uid args request =
        ({ st with wait := some ⟨0, args.getD 0 "", uid, false, request, true⟩ },
          st.replicas.map (fun r => (.replica r, MasterServer.getackFrame)))) ∧
    (MasterServer.respondToWait { st with wait := some w } =
      .ok ({ st with
          masterReplOffset := st.masterReplOffset + w.request.length,
          wait := some { w with isDone := true, timerArmed := false } },
        [(.client w.socket, Encoder.createInteger w.numOfAckReplicas)])) ∧
    (w.isDone = false → st.masterReplOffset ≤ n →
      jsNumGeStr (w.numOfAckReplicas + 1) w.numOfReqReplicas = true →
      MasterServer.acknowledgeReplica { st with wait := some w } (some n) =
        MasterServer.respondToWait { st with
          wait := some { w with numOfAckReplicas := w.numOfAckReplicas + 1 } }) := by
  refine ⟨?_, ?_, ?_, ?_, ?_⟩
  · intro h
    unfold MasterServer.handleWait
    rw [if_pos (by simp [h])]
  · intro h h0
    unfold MasterServer.handleWait
    rw [if_neg (by simp [h]), if_pos h0]
  · intro h h0
    unfold MasterServer.handleWait
    rw [if_neg (by simp [h]), if_neg h0]
  · rfl
  · intro hdone hq hquorum
    simp [MasterServer.acknowledgeReplica, hdone, hq, hquorum]

/-- C2 witness: each `WAIT` branch of the theorem at a concrete leader
state — no replicas; one replica with offset 0; one replica with offset
31; plus a concrete resolution and a concrete quorum-reaching ack. -/
theorem c2_witness :
    (MasterServer.handleWait ⟨[], 0, [], none, none, none⟩ 1 ["1", "500"] "W".data =
      (⟨[], 0, [], none, none, none⟩, [(.client 1, Encoder.createInteger 0)])) ∧
    (MasterServer.handleWait ⟨[], 0, [7], none, none, none⟩ 1 ["1", "500"] "W".data =
      (⟨[], 0, [7], none, none, none⟩, [(.client 1, Encoder.createInteger 1)])) ∧
    (MasterServer.handleWait ⟨[], 31, [7], none, none, none⟩ 1 ["1", "500"] "W".data =
      (⟨[], 31, [7], some ⟨0, "1", 1, false, "W".data, true⟩, none, none⟩,
        [(.replica 7, MasterServer.getackFrame)])) ∧
    (MasterServer.respondToWait ⟨[], 31, [7], some ⟨2, "1", 9, false, "WREQ".data, true⟩, none, none⟩ =
      .ok (⟨[], 35, [7], some ⟨2, "1", 9, true, "WREQ".data, false⟩, none, none⟩,
        [(.client 9, Encoder.createInteger 2)])) ∧
    (MasterServer.acknowledgeReplica ⟨[], 31, [7], some ⟨0, "1", 9, false, "WREQ".data, true⟩, none, none⟩ (some 31) =
      MasterServer.respondToWait ⟨[], 31, [7], some ⟨1, "1", 9, false, "WREQ".data, true⟩, none, none⟩) := by
  refine ⟨?_, ?_, ?_, ?_, ?_⟩
  · exact (c2_wait_behaviour ⟨[], 0, [], none, none, none⟩ 1 ["1", "500"] "W".data
      ⟨0, "", 0, false, [], false⟩ 0).1 rfl
  · exact (c2_wait_behaviour ⟨[], 0, [7], none, none, none⟩ 1 ["1", "500"] "W".data
      ⟨0, "", 0, false, [], false⟩ 0).2.1 (by decide) rfl
  · exact (c2_wait_behaviour ⟨[], 31, [7], none, none, none⟩ 1 ["1", "500"] "W".data
      ⟨0, "", 0, false, [], false⟩ 0).2.2.1 (by decide) (by decide)
  · exact (c2_wait_behaviour ⟨[], 31, [7], none, none, none⟩ 9 [] []
      ⟨2, "1", 9, false, "WREQ".data, true⟩ 0).2.2.2.1
  · exact (c2_wait_behaviour ⟨[], 31, [7], none, none, none⟩ 9 [] []
      ⟨0, "1", 9, false, "WREQ".data, true⟩ 31).2.2.2.2 rfl (by decide) (by decide)

theorem splitDashChars_no_dash (l : List Char) (h : '-' ∉ l) :
    splitDashChars l = [l] := by
  induction l with
  | nil => rfl
  | cons c cs ih =>
    simp only [List.mem_cons] at h
    push_neg at h
    have hc : ¬ c = '-' := fun he => h.1 he.symm
    simp [splitDashChars, hc, ih h.2]

theorem splitDashChars_append (a b : List Char) (ha : '-' ∉ a) (hb : '-' ∉ b) :
    splitDashChars (a ++ '-' :: b) = [a, b] := by
  induction a with
  | nil => simp [splitDashChars, splitDashChars_no_dash b hb]
  | cons c cs ih =>
    simp only [List.mem_cons] at ha
    push_neg at ha
    have hc : ¬ c = '-' := fun he => ha.1 he.symm
    have ih' := ih ha.2
    simp only [List.cons_append, splitDashChars, hc, if_false, reduceIte]
    rw [List.append_eq, ih']

theorem data_dash_concat (ms seq : String) :
    (ms ++ "-" ++ seq).data = ms.data ++ '-' :: seq.data := by
  simp [String.data_append]

theorem idPart0_dash_concat (ms seq : String) (hm : '-' ∉ ms.data)
    (hs : '-' ∉ seq.data) : idPart0 (ms ++ "-" ++ seq) = ms := by
  unfold idPart0 splitDash
  rw [data_dash_concat, splitDashChars_append ms.data seq.data hm hs]
  simp

theorem idPart1_dash_concat (ms seq : String) (hm : '-' ∉ ms.data)
    (hs : '-' ∉ seq.data) : idPart1 (ms ++ "-" ++ seq) = some seq := by
  unfold idPart1 splitDash
  rw [data_dash_concat, splitDashChars_append ms.data seq.data hm hs]
  simp

theorem dash_concat_ne_star (ms seq : String) : ms ++ "-" ++ seq ≠ "*" := by
  intro he
  have hd := congrArg String.data he
  rw [data_dash_concat] at hd
  cases hms : ms.data with
  | nil => rw [hms] at hd; simp at hd
  | cons c cs => rw [hms] at hd; simp at hd

theorem insertStream_explicit (m0 : JsMap) (k : String) (es : List StreamEntry)
    (ex : Option Nat) (ms seq : String) (fields : List (String × String)) (now : Nat)
    (hm : '-' ∉ ms.data) (hs : '-' ∉ seq.data) (hseq : seq ≠ "*") :
    HashTable.insertStream (mapSet m0 k ⟨.stream es, ex⟩) now k
        ⟨ms ++ "-" ++ seq, fields⟩ =
      (if h : es ≠ [] then
        (if jsStrLt ms (idPart0 (es.getLast h).id) then
          .ok (none, mapSet m0 k ⟨.stream es, ex⟩)
         else if ms = idPart0 (es.getLast h).id ∧
             jsLeOpt (some seq) (idPart1 (es.getLast h).id) = true then
          .ok (none, mapSet m0 k ⟨.stream es, ex⟩)
         else
          .ok (some (ms ++ "-" ++ seq),
            mapSet (mapSet m0 k ⟨.stream es, ex⟩) k
              ⟨.stream (es ++ [⟨ms ++ "-" ++ seq, fields⟩]), ex⟩))
       else
        .ok (some (ms ++ "-" ++ seq),
          mapSet (mapSet m0 k ⟨.stream es, ex⟩) k
            ⟨.stream (es ++ [⟨ms ++ "-" ++ seq, fields⟩]), ex⟩)) := by
  have hgm : mapGet (mapSet m0 k ⟨.stream es, ex⟩) k = some ⟨.stream es, ex⟩ :=
    mapGet_mapSet_self m0 k _
  unfold HashTable.insertStream
  simp only [hgm, Option.isSome_some, if_true, reduceIte,
    if_neg (dash_concat_ne_star ms seq),
    idPart0_dash_concat ms seq hm hs, idPart1_dash_concat ms seq hm hs]
  rw [if_neg (by simpa using hseq)]

/-- C1 counterexample: with stream `s` topped by `9-1`, the explicit
`XADD s 10-2` is numerically greater (`9 < 10` on the ms parts), so the
claim requires the entry to be appended and `"10-2"` returned; the code
compares the ms parts as *strings* (`"10" < "9"` lexicographically) and
rejects with the regression error, leaving the stream unchanged. -/
theorem c1_counterexample :
    MasterServer.handleXadd
        ⟨[("s", ⟨.stream [⟨"9-1", [("a", "1")]⟩], none⟩)], 0, [], none, none, none⟩
        100 1 ["s", "10-2", "b", "2"] =
      .ok (⟨[("s", ⟨.stream [⟨"9-1", [("a", "1")]⟩], none⟩)], 0, [], none, none, none⟩,
        [(.client 1, Encoder.createSimpleError
          "ERR The ID specified in XADD is equal or smaller than the target stream top item".data)]) ∧
    ((9 : Nat) < 10 ∧
      Encoder.createSimpleError
          "ERR The ID specified in XADD is equal or smaller than the target stream top item".data ≠
        Encoder.createBulkString "10-2".data) := by
  refine ⟨by decide, by decide, by decide⟩

theorem objSet_keys_not_mem (acc : List (String × String)) (k v x : String)
    (hx : x ∉ acc.map (·.1)) (hk : x ≠ k) :
    x ∉ (objSet acc k v).map (·.1) := by
  induction acc with
  | nil => simpa [objSet] using hk
  | cons p rest ih =>
    obtain ⟨k', v'⟩ := p
    simp only [List.map_cons, List.mem_cons] at hx
    push_neg at hx
    by_cases h : k' = k
    · simp only [objSet, if_pos h, List.map_cons, List.mem_cons]
      push_neg
      exact ⟨hx.1, hx.2⟩
    · simp only [objSet, if_neg h, List.map_cons, List.mem_cons]
      push_neg
      exact ⟨hx.1, ih hx.2⟩

theorem buildFields_keys_not_mem :
    ∀ (l : List String) (acc : List (String × String)) (x : String),
      x ∉ MasterServer.fieldNames l → x ∉ acc.map (·.1) →
      x ∉ (MasterServer.handleXadd.buildFields l acc).map (·.1)
  | [], _, _, _, hacc => hacc
  | [k], acc, x, hl, hacc => by
    have hk : x ≠ k := by simpa [MasterServer.fieldNames] using hl
    exact objSet_keys_not_mem acc k "undefined" x hacc hk
  | k :: v :: rest, acc, x, hl, hacc => by
    simp only [MasterServer.fieldNames, List.mem_cons] at hl
    push_neg at hl
    exact buildFields_keys_not_mem rest (objSet acc k v) x hl.2
      (objSet_keys_not_mem acc k v x hacc hl.1)

theorem buildFields_id_head :
    ∀ (l : List String) (acc : List (String × String)) (x : String),
      "id" ∉ MasterServer.fieldNames l →
      MasterServer.handleXadd.buildFields l (("id", x) :: acc) =
        ("id", x) :: MasterServer.handleXadd.buildFields l acc
  | [], _, _, _ => rfl
  | [k], acc, x, h => by
    have hk : ¬ ("id" : String) = k := by simpa [MasterServer.fieldNames] using h
    show objSet (("id", x) :: acc) k "undefined" =
      ("id", x) :: objSet acc k "undefined"
    simp [objSet, hk]
  | k :: v :: rest, acc, x, h => by
    simp only [MasterServer.fieldNames, List.mem_cons] at h
    push_neg at h
    show MasterServer.handleXadd.buildFields rest (objSet (("id", x) :: acc) k v) =
      ("id", x) :: MasterServer.handleXadd.buildFields rest (objSet acc k v)
    rw [show objSet (("id", x) :: acc) k v = ("id", x) :: objSet acc k v from by
      simp [objSet, h.1]]
    exact buildFields_id_head rest (objSet acc k v) x h.2

theorem filter_ne_id_of_not_mem (l : List (String × String))
    (h : "id" ∉ l.map (·.1)) :
    l.filter (fun p => p.1 ≠ "id") = l := by
  induction l with
  | nil => rfl
  | cons p rest ih =>
    simp only [List.map_cons, List.mem_cons] at h
    push_neg at h
    rw [List.filter_cons, if_pos (by simpa using Ne.symm h.1), ih h.2]

/-- C1 amended: for an explicit-id `XADD k ms-seq …` on a leader whose key
`k` holds a stream (and with no `XREAD BLOCK` waiter), and with no field
named `id` (a field literally named `id` overwrites the entry's id before
arbitration, see `handleXadd`): the literal id `0-0` is rejected with the
greater-than-0-0 error; otherwise, if the stream is non-empty and,
comparing the id components **as JS strings (lexicographically)**,
`ms <ₛ lms` or (`ms = lms` and `seq ≤ₛ lseq`) for the last entry's id
`lms-lseq`, the command is rejected with the equal-or-smaller error and
the stream is unchanged; in all other cases the entry is appended as given
and the id is returned as a bulk string. -/
theorem c1_xadd_explicit_id_lexicographic
    (m0 : JsMap) (es : List StreamEntry) (ex : Option Nat)
    (k ms seq : String) (rest : List String)
    (off uid now : Nat) (reps : List Nat) (w : Option WaitRec)
    (cfg : Option (List (String × String)))
    (hm : '-' ∉ ms.data) (hs : '-' ∉ seq.data) (hseq : seq ≠ "*")
    (hid : "id" ∉ MasterServer.fieldNames rest) :
    (ms ++ "-" ++ seq = "0-0" →
      MasterServer.handleXadd ⟨mapSet m0 k ⟨.stream es, ex⟩, off, reps, w, none, cfg⟩
          now uid (k :: (ms ++ "-" ++ seq) :: rest) =
        .ok (⟨mapSet m0 k ⟨.stream es, ex⟩, off, reps, w, none, cfg⟩,
          [(.client uid, Encoder.createSimpleError
            "ERR The ID specified in XADD must be greater than 0-0".data)])) ∧
    (ms ++ "-" ++ seq ≠ "0-0" →
      ∀ (h : es ≠ []),
      (jsStrLt ms (idPart0 (es.getLast h).id) = true ∨
        (ms = idPart0 (es.getLast h).id ∧
          jsLeOpt (some seq) (idPart1 (es.getLast h).id) = true)) →
      MasterServer.handleXadd ⟨mapSet m0 k ⟨.stream es, ex⟩, off, reps, w, none, cfg⟩
          now uid (k :: (ms ++ "-" ++ seq) :: rest) =
        .ok (⟨mapSet m0 k ⟨.stream es, ex⟩, off, reps, w, none, cfg⟩,
          [(.client uid, Encoder.createSimpleError
            "ERR The ID specified in XADD is equal or smaller than the target stream top item".data)])) ∧
    (ms ++ "-" ++ seq ≠ "0-0" →
      (∀ (h : es ≠ []),
        ¬ (jsStrLt ms (idPart0 (es.getLast h).id) = true ∨
          (ms = idPart0 (es.getLast h).id ∧
            jsLeOpt (some seq) (idPart1 (es.getLast h).id) = true))) →
      MasterServer.handleXadd ⟨mapSet m0 k ⟨.stream es, ex⟩, off, reps, w, none, cfg⟩
          now uid (k :: (ms ++ "-" ++ seq) :: rest) =
        .ok (⟨mapSet (mapSet m0 k ⟨.stream es, ex⟩) k
            ⟨.stream (es ++ [⟨ms ++ "-" ++ seq,
              MasterServer.handleXadd.buildFields rest []⟩]), ex⟩,
            off, reps, w, none, cfg⟩,
          [(.client uid, Encoder.createBulkString (ms ++ "-" ++ seq).data)])) := by
  have hobj : MasterServer.handleXadd.buildFields rest [("id", ms ++ "-" ++ seq)] =
      ("id", ms ++ "-" ++ seq) :: MasterServer.handleXadd.buildFields rest [] :=
    buildFields_id_head rest [] (ms ++ "-" ++ seq) hid
  have hlook : ((("id", ms ++ "-" ++ seq) ::
      MasterServer.handleXadd.buildFields rest []).lookup "id").getD
      (ms ++ "-" ++ seq) = ms ++ "-" ++ seq := by
    simp [List.lookup]
  have hfil : (("id", ms ++ "-" ++ seq) ::
      MasterServer.handleXadd.buildFields rest []).filter (fun p => p.1 ≠ "id") =
      MasterServer.handleXadd.buildFields rest [] := by
    rw [List.filter_cons, if_neg (by simp)]
    exact filter_ne_id_of_not_mem _
      (buildFields_keys_not_mem rest [] "id" hid (by simp))
  refine ⟨?_, ?_, ?_⟩
  · intro h00
    unfold MasterServer.handleXadd
    simp only [List.getD_cons_zero, List.getD_cons_succ, List.drop_succ_cons,
      List.drop_zero]
    rw [if_pos h00]
  · intro h00 h hrej
    unfold MasterServer.handleXadd
    simp only [List.getD_cons_zero, List.getD_cons_succ, List.drop_succ_cons,
      List.drop_zero]
    rw [hobj, hlook, hfil, if_neg h00]
    rw [insertStream_explicit m0 k es ex ms seq _ now hm hs hseq]
    rw [dif_pos h]
    rcases hrej with hlt | ⟨heq, hle⟩
    · rw [if_pos hlt]
      rfl
    · by_cases hlt : jsStrLt ms (idPart0 (es.getLast h).id) = true
      · rw [if_pos hlt]
        rfl
      · rw [if_neg hlt, if_pos ⟨heq, hle⟩]
        rfl
  · intro h00 hacc
    unfold MasterServer.handleXadd
    simp only [List.getD_cons_zero, List.getD_cons_succ, List.drop_succ_cons,
      List.drop_zero]
    rw [hobj, hlook, hfil, if_neg h00]
    rw [insertStream_explicit m0 k es ex ms seq _ now hm hs hseq]
    by_cases h : es ≠ []
    · rw [dif_pos h]
      rw [if_neg (fun hlt => hacc h (Or.inl hlt)),
        if_neg (fun hc => hacc h (Or.inr hc))]
      rfl
    · rw [dif_neg h]
      rfl

/-- C1 witness: the amended theorem at concrete inputs — the `0-0`
rejection, a lexicographic rejection of `10-2` after `9-1`, and an
accepted `9-2` after `9-1`. -/
theorem c1_witness :
    (MasterServer.handleXadd ⟨mapSet [] "s" ⟨.stream [⟨"9-1", [("a", "1")]⟩], none⟩,
        0, [], none, none, none⟩ 100 1 ["s", "0" ++ "-" ++ "0", "b", "2"] =
      .ok (⟨mapSet [] "s" ⟨.stream [⟨"9-1", [("a", "1")]⟩], none⟩, 0, [], none, none, none⟩,
        [(.client 1, Encoder.createSimpleError
          "ERR The ID specified in XADD must be greater than 0-0".data)])) ∧
    (MasterServer.handleXadd ⟨mapSet [] "s" ⟨.stream [⟨"9-1", [("a", "1")]⟩], none⟩,
        0, [], none, none, none⟩ 100 1 ["s", "10" ++ "-" ++ "2", "b", "2"] =
      .ok (⟨mapSet [] "s" ⟨.stream [⟨"9-1", [("a", "1")]⟩], none⟩, 0, [], none, none, none⟩,
        [(.client 1, Encoder.createSimpleError
          "ERR The ID specified in XADD is equal or smaller than the target stream top item".data)])) ∧
    (MasterServer.handleXadd ⟨mapSet [] "s" ⟨.stream [⟨"9-1", [("a", "1")]⟩], none⟩,
        0, [], none, none, none⟩ 100 1 ["s", "9" ++ "-" ++ "2", "b", "2"] =
      .ok (⟨mapSet (mapSet [] "s" ⟨.stream [⟨"9-1", [("a", "1")]⟩], none⟩) "s"
          ⟨.stream ([⟨"9-1", [("a", "1")]⟩] ++
            [⟨"9" ++ "-" ++ "2", MasterServer.handleXadd.buildFields ["b", "2"] []⟩]), none⟩,
          0, [], none, none, none⟩,
        [(.client 1, Encoder.createBulkString ("9" ++ "-" ++ "2").data)])) := by
  refine ⟨?_, ?_, ?_⟩
  · exact (c1_xadd_explicit_id_lexicographic [] [⟨"9-1", [("a", "1")]⟩] none "s" "0" "0"
      ["b", "2"] 0 1 100 [] none none (by decide) (by decide) (by decide)
      (by decide)).1 (by decide)
  · exact (c1_xadd_explicit_id_lexicographic [] [⟨"9-1", [("a", "1")]⟩] none "s" "10" "2"
      ["b", "2"] 0 1 100 [] none none (by decide) (by decide) (by decide)
      (by decide)).2.1
      (by decide) (by decide) (by decide)
  · exact (c1_xadd_explicit_id_lexicographic [] [⟨"9-1", [("a", "1")]⟩] none "s" "9" "2"
      ["b", "2"] 0 1 100 [] none none (by decide) (by decide) (by decide)
      (by decide)).2.2
      (by decide) (by
        intro h hrej
        rw [List.getLast_singleton] at hrej
        revert hrej
        decide)

/-- C4 counterexample: an `XADD` dispatched on a leader with one connected
replica (uid 7) succeeds and replies the bulk id to the client, but no
byte is written to any replica and `masterReplOffset` stays 31 — the
`xadd` case of `handleCommand` never calls `propagate`, contradicting the
claim that both `SET` and `XADD` propagate. -/
theorem c4_counterexample :
    MasterServer.handleCommand ⟨[], 31, [7], none, none, none⟩ 5 1
        ["XADD".data, "s".data, "5-1".data, "f".data, "v".data] "RAW".data =
      .ok (⟨[("s", ⟨.stream [⟨"5-1", [("f", "v")]⟩], none⟩)], 31, [7], none, none, none⟩,
        [(.client 1, Encoder.createBulkString "5-1".data)]) := by
  decide

/-- C4 amended: on the leader dispatch table, after a successful `SET` the
exact raw request bytes are written to every connected replica and
`masterReplOffset` grows by the raw request's byte length — but `XADD`,
although marked a write in the spec's table, is **not** propagated: its
dispatch case leaves the offset and the replica sockets untouched. -/
theorem c4_only_set_propagates (st : MasterState) (now uid : Nat)
    (a0 : List Char) (rest : List (List Char)) (request : List Char) :
    (strToLower ⟨a0⟩ = "set" →
      MasterServer.handleCommand st now uid (a0 :: rest) request =
        .ok ({ st with
            dataStore := (MasterServer.handleSet st.dataStore now
              (rest.map (fun l => ⟨l⟩))).2,
            masterReplOffset := st.masterReplOffset + request.length },
          (.client uid, (MasterServer.handleSet st.dataStore now
              (rest.map (fun l => ⟨l⟩))).1) ::
            st.replicas.map (fun r => (.replica r, request)))) ∧
    (strToLower ⟨a0⟩ = "xadd" → st.block = none →
      ∀ st' outs,
        MasterServer.handleCommand st now uid (a0 :: rest) request = .ok (st', outs) →
        st'.masterReplOffset = st.masterReplOffset ∧
        st'.replicas = st.replicas ∧
        ∀ r bytes, (Sink.replica r, bytes) ∉ outs) := by
  constructor
  · intro hset
    unfold MasterServer.handleCommand
    simp [hset, MasterServer.propagate]
  · intro hxadd hblock st' outs
    unfold MasterServer.handleCommand
    simp only [hxadd]
    norm_num
    unfold MasterServer.handleXadd
    cases h00 : (decide ((rest.map (fun l : List Char => (⟨l⟩ : String))).getD 1 "" = "0-0"))
    · simp only [decide_eq_false_iff_not] at h00
      rw [if_neg h00]
      cases hi : HashTable.insertStream st.dataStore now
          ((rest.map (fun l : List Char => (⟨l⟩ : String))).getD 0 "")
          ⟨((MasterServer.handleXadd.buildFields
                ((rest.map (fun l : List Char => (⟨l⟩ : String))).drop 2)
                [("id", (rest.map (fun l : List Char => (⟨l⟩ : String))).getD 1 "")]).lookup
                "id").getD
              ((rest.map (fun l : List Char => (⟨l⟩ : String))).getD 1 ""),
            (MasterServer.handleXadd.buildFields
                ((rest.map (fun l : List Char => (⟨l⟩ : String))).drop 2)
                [("id", (rest.map (fun l : List Char => (⟨l⟩ : String))).getD 1 "")]).filter
              (fun p => p.1 ≠ "id")⟩ with
      | error e =>
        simp [hi, Bind.bind, Except.bind]
      | ok p =>
        obtain ⟨entryId, m'⟩ := p
        simp only [hi, Bind.bind, Except.bind]
        cases entryId with
        | none =>
          intro hok
          cases hok
          simp
        | some eid =>
          unfold MasterServer.checkBlock
          simp only [hblock]
          intro hok
          cases hok
          simp
    · simp only [decide_eq_true_eq] at h00
      rw [if_pos h00]
      intro hok
      cases hok
      simp

/-- C4 witness: the amended theorem at a concrete leader with replica 7:
a `SET` propagates the raw request and advances the offset by its length;
an `XADD` leaves offset and replicas untouched and writes nothing to any
replica. -/
theorem c4_witness :
    (MasterServer.handleCommand ⟨[], 31, [7], none, none, none⟩ 5 1
        ["SET".data, "a".data, "b".data] "RAWREQ".data =
      .ok ({ (⟨[], 31, [7], none, none, none⟩ : MasterState) with
          dataStore := (MasterServer.handleSet [] 5 ["a", "b"]).2,
          masterReplOffset := 31 + ("RAWREQ".data).length },
        (.client 1, (MasterServer.handleSet [] 5 ["a", "b"]).1) ::
          [7].map (fun r => (.replica r, "RAWREQ".data)))) ∧
    ((⟨[("s", ⟨.stream [⟨"5-1", [("f", "v")]⟩], none⟩)], 31, [7], none, none, none⟩ :
        MasterState).masterReplOffset = 31 ∧
      [7] = [7] ∧
      ∀ (r : Nat) (bytes : List Char),
        (Sink.replica r, bytes) ∉
          [(Sink.client 1, Encoder.createBulkString "5-1".data)]) := by
  constructor
  · have h := (c4_only_set_propagates ⟨[], 31, [7], none, none, none⟩ 5 1
      "SET".data ["a".data, "b".data] "RAWREQ".data).1 (by decide)
    exact h
  · have h := (c4_only_set_propagates ⟨[], 31, [7], none, none, none⟩ 5 1
      "XADD".data ["s".data, "5-1".data, "f".data, "v".data] "RAW".data).2
      (by decide) rfl
      ⟨[("s", ⟨.stream [⟨"5-1", [("f", "v")]⟩], none⟩)], 31, [7], none, none, none⟩
      [(.client 1, Encoder.createBulkString "5-1".data)] (by decide)
    exact ⟨h.1, h.2.1, h.2.2⟩

/-- C5 counterexample: `"*1\r\n$1\r\na\r\n".take 9 = "*1\r\n$1\r\na"` is a
strict prefix of the encoded frame for `["a"]`, yet the parser returns the
full argument list `["a"]` (and advances its cursor) instead of rolling
back with no arguments: `getString` never checks the final CRLF. -/
theorem c5_counterexample :
    RequestParser.parseFrom ((Encoder.encodeArgs [['a']]).take 9) 0 =
      ([['a']], 11) ∧
    ((Encoder.encodeArgs [['a']]).take 9).length <
      (Encoder.encodeArgs [['a']]).length := by
  constructor
  · decide
  · decide

/-- C5 amended: encode∘parse is the identity on full frames — for every
non-empty argument list, parsing its encoding yields exactly the list
back, with the consumed slice equal to the whole frame and an empty
remainder.  A strict prefix that is cut anywhere before the final bulk
payload is complete (length < frame length − 2) makes the parser return no
arguments, roll its cursor back to the start, and retain the entire prefix
as the unconsumed tail; but the two longest strict prefixes — those
missing only (part of) the final CRLF — still parse successfully and
return the full argument list. -/
theorem c5_parse_roundtrip_and_prefix_rollback (args : List (List Char))
    (hne : args ≠ []) :
    (RequestParser.parseFrom (Encoder.encodeArgs args) 0 =
        (args, (Encoder.encodeArgs args).length) ∧
      RequestParser.currentRequest (Encoder.encodeArgs args) 0
        (Encoder.encodeArgs args).length = Encoder.encodeArgs args ∧
      RequestParser.getRemainingRequest (Encoder.encodeArgs args)
        (Encoder.encodeArgs args).length = []) ∧
    (∀ m, m < (Encoder.encodeArgs args).length - 2 →
      RequestParser.parseFrom ((Encoder.encodeArgs args).take m) 0 = ([], 0) ∧
      RequestParser.currentRequest ((Encoder.encodeArgs args).take m) 0 0 = [] ∧
      RequestParser.getRemainingRequest ((Encoder.encodeArgs args).take m) 0 =
        (Encoder.encodeArgs args).take m) ∧
    (∀ m, (Encoder.encodeArgs args).length - 2 ≤ m →
      m < (Encoder.encodeArgs args).length →
      (RequestParser.parseFrom ((Encoder.encodeArgs args).take m) 0).1 = args) := by
  have hE : Encoder.encodeArgs args = frameCore args ++ crlf :=
    encodeArgs_eq_frameCore args hne
  have hlen : (Encoder.encodeArgs args).length = (frameCore args).length + 2 := by
    rw [hE]
    simp [crlf]
  refine ⟨⟨?_, ?_, ?_⟩, ?_, ?_⟩
  · have h := parseFrom_ok args [] crlf hne
    simp only [List.nil_append, List.length_nil, Nat.zero_add] at h
    rw [hE, h]
    simp [crlf]
  · unfold RequestParser.currentRequest
    simp
  · unfold RequestParser.getRemainingRequest
    simp
  · intro m hm
    rw [hlen] at hm
    simp only [Nat.add_sub_cancel] at hm
    refine ⟨?_, rfl, ?_⟩
    · rw [hE]
      exact parseFrom_take_fail args crlf m hne hm
    · unfold RequestParser.getRemainingRequest
      simp
  · intro m hlo hhi
    rw [hlen] at hlo hhi
    simp only [Nat.add_sub_cancel] at hlo
    have hcase : m = (frameCore args).length ∨ m = (frameCore args).length + 1 := by
      omega
    rcases hcase with hm | hm
    · have htake : (Encoder.encodeArgs args).take m = frameCore args := by
        rw [hE, hm]
        exact List.take_left _ _
      rw [htake]
      have h := parseFrom_ok args [] [] hne
      simp only [List.nil_append, List.append_nil, List.length_nil, Nat.zero_add] at h
      rw [h]
    · have htake : (Encoder.encodeArgs args).take m = frameCore args ++ ['\r'] := by
        rw [hE, hm, List.take_append_eq_append_take,
          List.take_of_length_le (by omega),
          show (frameCore args).length + 1 - (frameCore args).length = 1 from by omega]
        rfl
      rw [htake]
      have h := parseFrom_ok args [] ['\r'] hne
      simp only [List.nil_append, List.length_nil, Nat.zero_add] at h
      rw [h]

/-- C5 witness: the amended theorem at `args = ["a"]` (frame
`*1\r\n$1\r\na\r\n`, length 11): full-frame roundtrip, rollback at the
strict prefix of length 4, and successful parses at lengths 9 and 10. -/
theorem c5_witness :
    RequestParser.parseFrom (Encoder.encodeArgs [['a']]) 0 =
      ([['a']], (Encoder.encodeArgs [['a']]).length) ∧
    RequestParser.parseFrom ((Encoder.encodeArgs [['a']]).take 4) 0 = ([], 0) ∧
    (RequestParser.parseFrom ((Encoder.encodeArgs [['a']]).take 10) 0).1 = [['a']] := by
  refine ⟨?_, ?_, ?_⟩
  · exact (c5_parse_roundtrip_and_prefix_rollback [['a']] (by decide)).1.1
  · exact ((c5_parse_roundtrip_and_prefix_rollback [['a']] (by decide)).2.1 4
      (by decide)).1
  · exact (c5_parse_roundtrip_and_prefix_rollback [['a']] (by decide)).2.2 10
      (by decide) (by decide)

/-- C3 counterexample: a follower that has consumed a 31-byte `SET` frame
replies to the 37-byte `REPLCONF GETACK *` frame with `ACK 31` — the
offset *before* the `GETACK` frame — because `processMasterBuffer`
advances `masterOffset` only after dispatching the request; the claim
requires the count inclusive of the `GETACK` frame (68). -/
theorem c3_counterexample :
    SlaveServer.processMasterBuffer ⟨[], 0,
        Encoder.encodeArgs ["SET".data, "foo".data, "bar".data] ++
          Encoder.encodeArgs ["REPLCONF".data, "GETACK".data, "*".data]⟩ 50 =
      .ok (⟨[("foo", ⟨.str "bar", some 86400050⟩)], 68, []⟩,
        [SlaveServer.handleReplconf 31]) ∧
    SlaveServer.handleReplconf 31 ≠ SlaveServer.handleReplconf 68 := by
  constructor
  · decide
  · decide

theorem parseFrom_past_end (req : List Char) (c : Nat) (h : req.length ≤ c) :
    parseFrom req c = ([], c) := by
  unfold parseFrom
  rw [curr_past_end req c h]
  rfl

theorem one_le_length_encodeArgs (f : List (List Char)) :
    1 ≤ (Encoder.encodeArgs f).length := by
  unfold Encoder.encodeArgs Encoder.createArray
  simp

theorem frames_length_le_flatten (frames : List (List (List Char))) :
    frames.length ≤ ((frames.map Encoder.encodeArgs).flatten).length := by
  induction frames with
  | nil => simp
  | cons f rest ih =>
    simp only [List.map_cons, List.flatten_cons, List.length_append,
      List.length_cons]
    have := one_le_length_encodeArgs f
    omega

theorem strToLower_mk_eq_iff (a0 : List Char) (s : String) :
    strToLower ⟨a0⟩ = s ↔ jsToLower a0 = s.data := by
  unfold strToLower
  rw [String.ext_iff]

theorem processLoop_frames (now : Nat) (frames : List (List (List Char))) :
    ∀ (fuel : Nat) (pre : List Char) (off : Nat) (m : JsMap),
    (∀ f ∈ frames, f ≠ [] ∧
      (strToLower ⟨f.headD []⟩ = "set" ∨ strToLower ⟨f.headD []⟩ = "replconf")) →
    frames.length < fuel →
    ∃ m', SlaveServer.processLoop now
        (pre ++ (frames.map Encoder.encodeArgs).flatten) fuel pre.length off m =
      .ok (off + ((frames.map Encoder.encodeArgs).flatten).length, m',
        SlaveServer.slaveAckStreamSpec off frames,
        pre.length + ((frames.map Encoder.encodeArgs).flatten).length) := by
  induction frames with
  | nil =>
    intro fuel pre off m _ hfuel
    obtain ⟨fu, rfl⟩ : ∃ fu, fuel = fu + 1 := ⟨fuel - 1, by omega⟩
    refine ⟨m, ?_⟩
    unfold SlaveServer.processLoop
    rw [List.map_nil, List.flatten_nil, List.append_nil,
      parseFrom_past_end pre pre.length (le_refl _)]
    simp [SlaveServer.slaveAckStreamSpec]
  | cons f rest ih =>
    intro fuel pre off m hwf hfuel
    obtain ⟨fu, rfl⟩ : ∃ fu, fuel = fu + 1 := ⟨fuel - 1, by omega⟩
    have hf := hwf f (by simp)
    have hfne : f ≠ [] := hf.1
    have hEf : Encoder.encodeArgs f = frameCore f ++ crlf :=
      encodeArgs_eq_frameCore f hfne
    have hlenEf : (Encoder.encodeArgs f).length = (frameCore f).length + 2 := by
      rw [hEf]
      simp [crlf]
    have hshape : pre ++ ((f :: rest).map Encoder.encodeArgs).flatten =
        pre ++ frameCore f ++ (crlf ++ (rest.map Encoder.encodeArgs).flatten) := by
      simp only [List.map_cons, List.flatten_cons, hEf]
      simp [List.append_assoc]
    unfold SlaveServer.processLoop
    rw [hshape]
    simp only [parseFrom_ok f pre _ hfne]
    rw [if_neg hfne]
    have hcr : RequestParser.currentRequest
        (pre ++ frameCore f ++ (crlf ++ (rest.map Encoder.encodeArgs).flatten))
        pre.length (pre.length + (frameCore f).length + 2) =
        Encoder.encodeArgs f := by
      unfold RequestParser.currentRequest
      have hshape2 : pre ++ frameCore f ++ (crlf ++ (rest.map Encoder.encodeArgs).flatten) =
          pre ++ (frameCore f ++ (crlf ++ (rest.map Encoder.encodeArgs).flatten)) := by
        simp [List.append_assoc]
      rw [hshape2, List.drop_left,
        show pre.length + (frameCore f).length + 2 - pre.length =
          (frameCore f).length + 2 from by omega]
      rw [List.take_append_eq_append_take, List.take_of_length_le (by omega),
        show (frameCore f).length + 2 - (frameCore f).length = 2 from by omega,
        List.take_append_eq_append_take,
        List.take_of_length_le (l := crlf) (by simp [crlf]),
        show 2 - crlf.length = 0 from by simp [crlf]]
      simp [hEf]
    rw [hcr]
    -- dispatch the frame: a SET applies to the keyspace silently, a
    -- REPLCONF answers with the current (pre-frame) offset
    obtain ⟨a0, ftail, rfl⟩ : ∃ a0 ftail, f = a0 :: ftail := by
      cases f with
      | nil => exact absurd rfl hfne
      | cons a t => exact ⟨a, t, rfl⟩
    have hspec_head : ((a0 :: ftail).headD []) = a0 := rfl
    simp only [List.headD_cons] at hf
    have hdispatch : ∃ (m₂ : JsMap) (outs_f : List (List Char)),
        SlaveServer.handleCommand m off now (a0 :: ftail) = .ok (m₂, outs_f) ∧
        outs_f = (if jsToLower ((a0 :: ftail).headD []) = "replconf".data
          then [SlaveServer.handleReplconf off] else []) := by
      rcases hf.2 with hset | hrep
      · refine ⟨SlaveServer.handleSet m now (ftail.map (fun l => ⟨l⟩)), [], ?_, ?_⟩
        · unfold SlaveServer.handleCommand
          simp [hset, show strToLower ⟨a0⟩ ≠ "info" from by
            rw [hset]; decide]
        · rw [hspec_head, if_neg]
          rw [strToLower_mk_eq_iff] at hset
          intro hc
          rw [hc] at hset
          exact absurd hset (by decide)
      · refine ⟨m, [SlaveServer.handleReplconf off], ?_, ?_⟩
        · unfold SlaveServer.handleCommand
          simp [hrep, show strToLower ⟨a0⟩ ≠ "info" from by rw [hrep]; decide,
            show strToLower ⟨a0⟩ ≠ "set" from by rw [hrep]; decide,
            show strToLower ⟨a0⟩ ≠ "get" from by rw [hrep]; decide]
        · rw [hspec_head, if_pos]
          rw [strToLower_mk_eq_iff] at hrep
          exact hrep
    obtain ⟨m₂, outs_f, hcmd, houts⟩ := hdispatch
    rw [hcmd]
    simp only [Bind.bind, Except.bind]
    have hrest := ih fu (pre ++ Encoder.encodeArgs (a0 :: ftail))
      (off + (Encoder.encodeArgs (a0 :: ftail)).length) m₂
      (fun g hg => hwf g (by simp [hg])) (by simp at hfuel ⊢; omega)
    obtain ⟨m', hm'⟩ := hrest
    have hshape3 : (pre ++ Encoder.encodeArgs (a0 :: ftail)) ++
        (rest.map Encoder.encodeArgs).flatten =
        pre ++ frameCore (a0 :: ftail) ++ (crlf ++ (rest.map Encoder.encodeArgs).flatten) := by
      simp only [hEf]
      simp [List.append_assoc]
    have hculen : (pre ++ Encoder.encodeArgs (a0 :: ftail)).length =
        pre.length + (frameCore (a0 :: ftail)).length + 2 := by
      simp [hlenEf]
      omega
    rw [hshape3, hculen] at hm'
    rw [hm']
    simp only [Bind.bind, Except.bind]
    refine ⟨m', ?_⟩
    have hflat : (((a0 :: ftail) :: rest).map Encoder.encodeArgs).flatten.length =
        (Encoder.encodeArgs (a0 :: ftail)).length +
          ((rest.map Encoder.encodeArgs).flatten).length := by
      simp
    rw [show SlaveServer.slaveAckStreamSpec off ((a0 :: ftail) :: rest) =
        (if jsToLower ((a0 :: ftail).headD []) = "replconf".data
          then [SlaveServer.handleReplconf off] else []) ++
          SlaveServer.slaveAckStreamSpec (off + (Encoder.encodeArgs (a0 :: ftail)).length)
            rest from rfl]
    rw [← houts, hflat]
    have e1 : off + (Encoder.encodeArgs (a0 :: ftail)).length +
        ((rest.map Encoder.encodeArgs).flatten).length =
        off + ((Encoder.encodeArgs (a0 :: ftail)).length +
          ((rest.map Encoder.encodeArgs).flatten).length) := by
      omega
    have e2 : pre.length + (frameCore (a0 :: ftail)).length + 2 +
        ((rest.map Encoder.encodeArgs).flatten).length =
        pre.length + ((Encoder.encodeArgs (a0 :: ftail)).length +
          ((rest.map Encoder.encodeArgs).flatten).length) := by
      rw [hlenEf]
      omega
    rw [e1, e2]

/-- C3 amended: for a follower in the streaming state and any sequence of
well-formed master frames (each a `SET` or `REPLCONF` command),
`processMasterBuffer` consumes them all, ends with `masterOffset` advanced
by the total byte length, and answers each `REPLCONF` frame with
`REPLCONF ACK <offset-before-that-frame>` — the consumed byte count
**exclusive** of the `GETACK` request frame itself, because the offset is
advanced only after the dispatch that produced the reply. -/
theorem c3_getack_ack_excludes_getack_frame
    (frames : List (List (List Char))) (m0 : JsMap) (off0 now : Nat)
    (hwf : ∀ f ∈ frames, f ≠ [] ∧
      (strToLower ⟨f.headD []⟩ = "set" ∨ strToLower ⟨f.headD []⟩ = "replconf")) :
    ∃ m', SlaveServer.processMasterBuffer
        ⟨m0, off0, (frames.map Encoder.encodeArgs).flatten⟩ now =
      .ok (⟨m', off0 + ((frames.map Encoder.encodeArgs).flatten).length, []⟩,
        SlaveServer.slaveAckStreamSpec off0 frames) := by
  obtain ⟨m', hm'⟩ := processLoop_frames now frames
    (((frames.map Encoder.encodeArgs).flatten).length + 1) [] off0 m0 hwf
    (by have := frames_length_le_flatten frames; omega)
  refine ⟨m', ?_⟩
  unfold SlaveServer.processMasterBuffer
  simp only [List.nil_append, List.length_nil] at hm'
  rw [hm']
  simp only [Bind.bind, Except.bind]
  unfold RequestParser.getRemainingRequest
  rw [show (0 : Nat) + ((frames.map Encoder.encodeArgs).flatten).length =
    ((frames.map Encoder.encodeArgs).flatten).length from by omega]
  rw [List.drop_length]

/-- C3 witness: the amended theorem at the concrete frame sequence
`SET foo bar` (31 bytes) followed by `REPLCONF GETACK *` (37 bytes): the
single ack emitted carries offset 31 and the final offset is 68. -/
theorem c3_witness :
    ∃ m', SlaveServer.processMasterBuffer ⟨[], 0,
        (([["SET".data, "foo".data, "bar".data],
           ["REPLCONF".data, "GETACK".data, "*".data]].map Encoder.encodeArgs).flatten)⟩ 50 =
      .ok (⟨m', 0 + (([["SET".data, "foo".data, "bar".data],
           ["REPLCONF".data, "GETACK".data, "*".data]].map Encoder.encodeArgs).flatten).length, []⟩,
        SlaveServer.slaveAckStreamSpec 0
          [["SET".data, "foo".data, "bar".data],
           ["REPLCONF".data, "GETACK".data, "*".data]]) :=
  c3_getack_ack_excludes_getack_frame
    [["SET".data, "foo".data, "bar".data],
     ["REPLCONF".data, "GETACK".data, "*".data]] [] 0 50 (by decide)
